import Mathlib

/-!
# TradingAgentRegistry — a shallow embedding

This file embeds the two Solidity `TradingAgentRegistry` contract variants of
the AgentTrade repository and proves properties of the embedded operations.

Variant 1 (the automation-enabled registry) provides `createAgent`,
`updateStrategy`, `activateAgent`/`deactivateAgent`, `executeSwap`,
`checkUpkeep`, `deposit`/`withdraw`, `getAgent`, `getAgentBalance`,
`setMaxAgentsPerCheck`, `setPriceMaxAge` and the internal `_convertPrice`.

Variant 2 (the trigger-detection registry) provides `createAgent`,
`updateStrategy`, `checkAndExecuteTrigger`, `activateAgent`/`deactivateAgent`,
`transferAgentOwnership` and the internal `_convertPriceToUint`.

Modelling conventions:
* `address` and `bytes32` values are modelled as `Nat` (`0` is the zero
  address / zero word).
* `uint256` quantities are modelled as `Nat`; Solidity 0.8 reverts on
  overflow rather than wrapping, and where an overflow is reachable from
  the 64-bit oracle inputs (the `10 ** expo` scaling in the price
  conversion) the checked-arithmetic revert is modelled explicitly.
* a reverting call is an `Except.error`; reversion restores the caller's
  pre-state, which the `run…` wrappers make explicit.
* external capabilities (the Pyth oracle, the ENS registry, the ERC20
  tokens, the 1inch router, keccak256) are modelled as components of a
  per-transaction environment.
-/

/-- EVM address, modelled as a natural number (`0` = the zero address). -/
abbrev Addr := Nat

/-- `bytes32` word, modelled as a natural number (`0` = the zero word). -/
abbrev B32 := Nat

/-- `2 ^ 256`, the bound of Solidity's checked `uint256` arithmetic. -/
def uint256Bound : Nat := 2 ^ 256

/-- A Pyth price observation: `PythStructs.Price` with mantissa `price`
(`int64`), exponent `expo` (`int32`) and `publishTime` (`uint`). -/
structure PythPrice where
  price : Int
  expo : Int
  publishTime : Nat
  deriving Repr, DecidableEq

/-- The `TradingStrategy` struct shared by both contract variants (variant 2
omits `minReturnAmount`; keeping the field with value `0` there is harmless
since variant 2 never reads it). -/
structure TradingStrategy where
  priceFeedId : B32
  triggerPrice : Nat
  triggerAbove : Bool
  tokenIn : Addr
  tokenOut : Addr
  amountIn : Nat
  minReturnAmount : Nat
  isActive : Bool
  lastExecuted : Nat
  cooldownPeriod : Nat
  deriving Repr, DecidableEq

/-- The `Agent` struct of variant 1.  The Solidity `exists` flag is modelled
by wrapping the record in `Option` inside the registry mapping. -/
structure Agent where
  owner : Addr
  ensNode : B32
  ensName : String
  strategy : TradingStrategy
  createdAt : Nat
  totalExecutions : Nat
  deriving Repr, DecidableEq

/-- The `Agent` struct of variant 2 (no `totalExecutions` field). -/
structure Agent2 where
  owner : Addr
  ensNode : B32
  ensName : String
  strategy : TradingStrategy
  createdAt : Nat
  deriving Repr, DecidableEq

/-- The revert reasons of both contract variants.  Custom errors keep their
source names; `require` messages and panics are given descriptive names
(`invalidPrice` for `require(price > 0, "Invalid price")`,
`arithmeticOverflow` for a checked-arithmetic panic, `externalCallFailed`
for a revert bubbled out of a plain external call, `insufficientFee` for
`require(msg.value >= fee)`, `refundFailed` for `require(success)` after the
refund call, `transferFailed` for a failing ERC20 transfer). -/
inductive Err where
  | agentNotFound
  | agentExists
  | unauthorized
  | invalidStrategy
  | insufficientBalance
  | swapFailed
  | triggerNotMet
  | cooldownActive
  | invalidAddress
  | invalidPrice
  | arithmeticOverflow
  | externalCallFailed
  | stalePrice
  | priceNotUpdated
  | cooldownNotExpired
  | strategyNotActive
  | invalidPriceFeed
  | insufficientFee
  | refundFailed
  | transferFailed
  deriving Repr, DecidableEq

/-- `_convertPrice` (variant 1): `require(price > 0, "Invalid price")`, then
`uint256(uint64(price))` unchanged for a negative exponent, or scaled by
`10 ** uint256(int256(expo))` for a non-negative exponent.  The `10 ** e`
exponentiation and the subsequent multiplication are checked `uint256`
arithmetic in Solidity 0.8, so each reverts (a panic) once the value
reaches `2 ^ 256`; that revert is modelled as `arithmeticOverflow`. -/
def convertPrice (price : Int) (expo : Int) : Except Err Nat :=
  if price ≤ 0 then .error .invalidPrice
  else
    let priceValue : Nat := price.toNat
    if expo < 0 then .ok priceValue
    else
      let factor : Nat := 10 ^ expo.toNat
      if factor < uint256Bound then
        if priceValue * factor < uint256Bound then .ok (priceValue * factor)
        else .error .arithmeticOverflow
      else .error .arithmeticOverflow

/-- `_convertPriceToUint` (variant 2): textually distinct from variant 1's
`_convertPrice` but the same computation. -/
def convertPriceToUint (price : Int) (expo : Int) : Except Err Nat :=
  if price ≤ 0 then .error .invalidPrice
  else
    let priceValue : Nat := price.toNat
    if expo < 0 then .ok priceValue
    else
      let factor : Nat := 10 ^ expo.toNat
      if factor < uint256Bound then
        if priceValue * factor < uint256Bound then .ok (priceValue * factor)
        else .error .arithmeticOverflow
      else .error .arithmeticOverflow

/-- The trigger comparison used (identically) by `executeSwap`,
`checkUpkeep`, `checkTrigger` and `checkAndExecuteTrigger`:
`triggerAbove ? currentPrice >= triggerPrice : currentPrice <= triggerPrice`. -/
def triggerMet (s : TradingStrategy) (currentPrice : Nat) : Bool :=
  if s.triggerAbove then decide (s.triggerPrice ≤ currentPrice)
  else decide (currentPrice ≤ s.triggerPrice)

/-- The cooldown gate used (identically) by `executeSwap`, `checkUpkeep` and
`checkAndExecuteTrigger`:
`block.timestamp < strategy.lastExecuted + strategy.cooldownPeriod`. -/
def cooldownActive (s : TradingStrategy) (now : Nat) : Bool :=
  decide (now < s.lastExecuted + s.cooldownPeriod)

/-- The 1inch V6 `SwapDescription` struct built by `executeSwap`. -/
structure SwapDescription where
  srcToken : Addr
  dstToken : Addr
  srcReceiver : Addr
  dstReceiver : Addr
  amount : Nat
  minReturnAmount : Nat
  flags : Nat
  deriving Repr, DecidableEq

/-- `address(this)` of the deployed registry contract. -/
def registryAddr : Addr := 1000

/-- `address(oneInchRouter)`, the immutable router address. -/
def routerAddr : Addr := 1001

/-- Mutable storage of variant 1 of `TradingAgentRegistry`; the immutable
`baseNode` is carried alongside.  The Solidity mapping
`mapping(bytes32 => Agent)` is modelled as `B32 → Option Agent`, where
`none` stands for an entry whose `exists` flag is false. -/
structure RegistryState where
  agents : B32 → Option Agent
  userAgents : Addr → List B32
  allAgentIds : List B32
  agentCount : Nat
  maxAgentsPerCheck : Nat
  priceMaxAge : Nat
  baseNode : B32

/-- The external world visible to one transaction against variant 1: the
block timestamp, the Pyth oracle (`getPriceUnsafe` and
`getPriceNoOlderThan`, `none` = the call reverts), the registry's ERC20
balances (`balanceOf token` = `IERC20(token).balanceOf(address(this))`),
the 1inch router (`none` = the `swap` call reverts, which per the router's
contract subsumes a fill below `minReturnAmount`), the success of the
`ens.setSubnodeRecord` and `safeApprove` calls, and keccak256 (opaque
hashing of a label / of a `(node, label)` pair). -/
structure Env where
  now : Nat
  getPriceUnsafe : B32 → Option PythPrice
  priceNoOlderThan : B32 → Nat → Option PythPrice
  balanceOf : Addr → Nat
  swap : SwapDescription → Option Nat
  ensOk : Bool
  approveOk : Bool
  keccakOfLabel : String → B32
  keccakOfPair : B32 → B32 → B32

/-- Pointwise update of an agent mapping (a Solidity storage write). -/
def setAgent (m : B32 → Option Agent) (id : B32) (a : Agent) : B32 → Option Agent :=
  fun j => if j = id then some a else m j

/-- `_validateStrategy` (variant 1): non-zero feed id, trigger price and
token addresses, distinct tokens, and the Pyth feed must resolve
(`try pyth.getPriceUnsafe(feedId)`). -/
def validateStrategy (env : Env) (s : TradingStrategy) : Bool :=
  decide (s.priceFeedId ≠ 0) && decide (s.triggerPrice ≠ 0) &&
  decide (s.tokenIn ≠ 0) && decide (s.tokenOut ≠ 0) &&
  decide (s.tokenIn ≠ s.tokenOut) && (env.getPriceUnsafe s.priceFeedId).isSome

/-- `createAgent` (variant 1): reject an existing id, validate the strategy,
bind the ENS subname, store the agent (strategy stored verbatim,
`totalExecutions = 0`), index it, bump `agentCount`, and approve the router
for `tokenIn`.  A failing ENS or approval call reverts the transaction. -/
def createAgent (env : Env) (st : RegistryState) (sender : Addr) (agentId : B32)
    (ensLabel : String) (strategy : TradingStrategy) :
    Except Err (RegistryState × B32) :=
  match st.agents agentId with
  | some _ => .error .agentExists
  | none =>
    if validateStrategy env strategy = false then .error .invalidStrategy
    else
      let label := env.keccakOfLabel ensLabel
      let ensNode := env.keccakOfPair st.baseNode label
      if env.ensOk = false then .error .externalCallFailed
      else
        let agent : Agent :=
          { owner := sender
            ensNode := ensNode
            ensName := ensLabel ++ ".agenttrade.eth"
            strategy := strategy
            createdAt := env.now
            totalExecutions := 0 }
        let st' : RegistryState :=
          { st with
            agents := setAgent st.agents agentId agent
            userAgents := fun u =>
              if u = sender then st.userAgents sender ++ [agentId]
              else st.userAgents u
            allAgentIds := st.allAgentIds ++ [agentId]
            agentCount := st.agentCount + 1 }
        if env.approveOk = false then .error .externalCallFailed
        else .ok (st', ensNode)

/-- `getAgent` (variant 1). -/
def getAgent (st : RegistryState) (agentId : B32) : Except Err Agent :=
  match st.agents agentId with
  | none => .error .agentNotFound
  | some a => .ok a

/-- `updateStrategy` (variant 1): owner-only wholesale replacement of the
strategy (including its `lastExecuted` field) after re-validation; a changed
`tokenIn` triggers a fresh router approval. -/
def updateStrategy (env : Env) (st : RegistryState) (sender : Addr) (agentId : B32)
    (newStrategy : TradingStrategy) : Except Err RegistryState :=
  match st.agents agentId with
  | none => .error .agentNotFound
  | some agent =>
    if agent.owner ≠ sender then .error .unauthorized
    else if validateStrategy env newStrategy = false then .error .invalidStrategy
    else if agent.strategy.tokenIn ≠ newStrategy.tokenIn ∧ env.approveOk = false then
      .error .externalCallFailed
    else .ok { st with agents := setAgent st.agents agentId { agent with strategy := newStrategy } }

/-- `activateAgent` (variant 1). -/
def activateAgent (st : RegistryState) (sender : Addr) (agentId : B32) :
    Except Err RegistryState :=
  match st.agents agentId with
  | none => .error .agentNotFound
  | some agent =>
    if agent.owner ≠ sender then .error .unauthorized
    else
      let agent' := { agent with strategy := { agent.strategy with isActive := true } }
      .ok { st with agents := setAgent st.agents agentId agent' }

/-- `deactivateAgent` (variant 1). -/
def deactivateAgent (st : RegistryState) (sender : Addr) (agentId : B32) :
    Except Err RegistryState :=
  match st.agents agentId with
  | none => .error .agentNotFound
  | some agent =>
    if agent.owner ≠ sender then .error .unauthorized
    else
      let agent' := { agent with strategy := { agent.strategy with isActive := false } }
      .ok { st with agents := setAgent st.agents agentId agent' }

/-- The resolved trade size used by `executeSwap` and `checkUpkeep`:
`amountIn`, or the contract's whole `tokenIn` balance when `amountIn = 0`. -/
def resolvedAmount (env : Env) (s : TradingStrategy) : Nat :=
  if s.amountIn = 0 then env.balanceOf s.tokenIn else s.amountIn

/-- The `SwapDescription` literal built inside `executeSwap`. -/
def mkSwapDesc (s : TradingStrategy) (swapAmount : Nat) : SwapDescription :=
  { srcToken := s.tokenIn
    dstToken := s.tokenOut
    srcReceiver := routerAddr
    dstReceiver := registryAddr
    amount := swapAmount
    minReturnAmount := s.minReturnAmount
    flags := 0 }

/-- `executeSwap` (variant 1): load the agent, require it active, re-check
the cooldown, fetch a fresh price (an oracle revert propagates), convert it,
require the trigger met, resolve the swap amount (`0` = full balance),
require the balance sufficient, call the router, and on success commit
`lastExecuted = block.timestamp` and `totalExecutions + 1`; a router revert
becomes `SwapFailed` with no state change. -/
def executeSwap (env : Env) (st : RegistryState) (agentId : B32) :
    Except Err (RegistryState × Nat) :=
  match st.agents agentId with
  | none => .error .agentNotFound
  | some agent =>
    if agent.strategy.isActive = false then .error .invalidStrategy
    else if cooldownActive agent.strategy env.now then .error .cooldownActive
    else
      match env.priceNoOlderThan agent.strategy.priceFeedId st.priceMaxAge with
      | none => .error .stalePrice
      | some pr =>
        match convertPrice pr.price pr.expo with
        | .error e => .error e
        | .ok currentPrice =>
          if triggerMet agent.strategy currentPrice = false then .error .triggerNotMet
          else
            let balance := env.balanceOf agent.strategy.tokenIn
            let swapAmount := resolvedAmount env agent.strategy
            if balance < swapAmount ∨ swapAmount = 0 then .error .insufficientBalance
            else
              match env.swap (mkSwapDesc agent.strategy swapAmount) with
              | none => .error .swapFailed
              | some returnAmount =>
                let agent' : Agent :=
                  { agent with
                    strategy := { agent.strategy with lastExecuted := env.now }
                    totalExecutions := agent.totalExecutions + 1 }
                .ok ({ st with agents := setAgent st.agents agentId agent' }, returnAmount)

/-- The post-transaction registry state of an `executeSwap` call: a revert
(an `error` outcome) leaves the storage unchanged. -/
def runExecuteSwap (env : Env) (st : RegistryState) (agentId : B32) : RegistryState :=
  match executeSwap env st agentId with
  | .ok (st', _) => st'
  | .error _ => st

/-- `setMaxAgentsPerCheck` (variant 1): no access control, no failure path. -/
def setMaxAgentsPerCheck (st : RegistryState) (_caller : Addr) (v : Nat) :
    Except Err RegistryState :=
  .ok { st with maxAgentsPerCheck := v }

/-- `setPriceMaxAge` (variant 1): no access control, no failure path. -/
def setPriceMaxAge (st : RegistryState) (_caller : Addr) (v : Nat) :
    Except Err RegistryState :=
  .ok { st with priceMaxAge := v }

/-- The `checkUpkeep` loop body for one agent id: skip (`ok false`) a missing
or inactive or cooling-down agent, skip on insufficient or zero resolved
amount, skip (the `catch` branch) when `getPriceNoOlderThan` reverts, and
otherwise report whether the trigger comparison holds.  A revert raised by
`_convertPrice` happens *inside* the `try` block, is not caught, and aborts
the whole scan — hence the `Except`. -/
def upkeepExamine (env : Env) (st : RegistryState) (agentId : B32) :
    Except Err Bool :=
  match st.agents agentId with
  | none => .ok false
  | some agent =>
    if agent.strategy.isActive = false ∨ cooldownActive agent.strategy env.now then .ok false
    else
      let balance := env.balanceOf agent.strategy.tokenIn
      let requiredAmount := resolvedAmount env agent.strategy
      if balance < requiredAmount ∨ requiredAmount = 0 then .ok false
      else
        match env.priceNoOlderThan agent.strategy.priceFeedId st.priceMaxAge with
        | none => .ok false
        | some pr =>
          match convertPrice pr.price pr.expo with
          | .error e => .error e
          | .ok currentPrice => .ok (triggerMet agent.strategy currentPrice)

/-- The `checkUpkeep` loop over the ids it may visit, carrying the
accumulated `readyAgents` list; the `count < maxAgentsPerCheck` conjunct of
the loop condition is modelled by the `acc.length` guard. -/
def upkeepScan (env : Env) (st : RegistryState) :
    List B32 → List B32 → Except Err (List B32)
  | [], acc => .ok acc
  | agentId :: rest, acc =>
    if acc.length < st.maxAgentsPerCheck then
      match upkeepExamine env st agentId with
      | .error e => .error e
      | .ok true => upkeepScan env st rest (acc ++ [agentId])
      | .ok false => upkeepScan env st rest acc
    else .ok acc

/-- `checkUpkeep` (variant 1): scan the first
`min(allAgentIds.length, maxAgentsPerCheck)` stored agent ids and return
`(true, candidates)` when any candidate was found, else `(false, [])`. -/
def checkUpkeep (env : Env) (st : RegistryState) : Except Err (Bool × List B32) :=
  let maxCheck := min st.allAgentIds.length st.maxAgentsPerCheck
  match upkeepScan env st (st.allAgentIds.take maxCheck) [] with
  | .error e => .error e
  | .ok ready => .ok (if 0 < ready.length then (true, ready) else (false, []))

/-- ERC20 balances of the outside world: `token → holder → balance`. -/
abbrev TokenWorld := Addr → Addr → Nat

/-- Write one ERC20 balance cell. -/
def setBal (w : TokenWorld) (token holder : Addr) (v : Nat) : TokenWorld :=
  fun t h => if t = token ∧ h = holder then v else w t h

/-- An ERC20 `transfer`/`transferFrom` of `amount` from `src` to `dst`:
fails (the safe-transfer revert) when `src`'s balance is insufficient. -/
def erc20Transfer (w : TokenWorld) (token src dst : Addr) (amount : Nat) :
    Option TokenWorld :=
  if w token src < amount then none
  else
    let w1 := setBal w token src (w token src - amount)
    some (setBal w1 token dst (w1 token dst + amount))

/-- `deposit` (variant 1): owner-only; pulls `amount` of `token` from the
caller into the registry contract itself — one shared pool, no per-agent
record of the deposit.  Registry storage is untouched. -/
def deposit (st : RegistryState) (w : TokenWorld) (sender : Addr) (agentId : B32)
    (token : Addr) (amount : Nat) : Except Err TokenWorld :=
  match st.agents agentId with
  | none => .error .agentNotFound
  | some agent =>
    if agent.owner ≠ sender then .error .unauthorized
    else
      match erc20Transfer w token sender registryAddr amount with
      | none => .error .transferFailed
      | some w' => .ok w'

/-- `withdraw` (variant 1): owner-only; sends `amount` of `token` from the
registry contract to the caller.  No check ties `token` or `amount` to
anything deposited for `agentId`. -/
def withdraw (st : RegistryState) (w : TokenWorld) (sender : Addr) (agentId : B32)
    (token : Addr) (amount : Nat) : Except Err TokenWorld :=
  match st.agents agentId with
  | none => .error .agentNotFound
  | some agent =>
    if agent.owner ≠ sender then .error .unauthorized
    else
      match erc20Transfer w token registryAddr sender amount with
      | none => .error .transferFailed
      | some w' => .ok w'

/-- `getAgentBalance` (variant 1): requires the agent to exist, then returns
`IERC20(token).balanceOf(address(this))` — the contract's whole balance,
not a per-agent figure. -/
def getAgentBalance (st : RegistryState) (w : TokenWorld) (agentId : B32)
    (token : Addr) : Except Err Nat :=
  match st.agents agentId with
  | none => .error .agentNotFound
  | some _ => .ok (w token registryAddr)

/-- Mutable storage of variant 2 of `TradingAgentRegistry` (plus its
immutable `baseNode`). -/
structure Registry2State where
  agents : B32 → Option Agent2
  userAgents : Addr → List B32
  ensNodeToAgentId : B32 → B32
  agentCount : Nat
  baseNode : B32

/-- The external world visible to one transaction against variant 2:
block timestamp, message value, the Pyth oracle (`getUpdateFee`,
`updatePriceFeeds` success, `getPriceUnsafe`, `getPriceNoOlderThan`), the
success of the refund call and of the ENS call, and keccak256. -/
structure Env2 where
  now : Nat
  msgValue : Nat
  updateFee : Nat
  updateOk : Bool
  getPriceUnsafe : B32 → Option PythPrice
  priceNoOlderThan : B32 → Nat → Option PythPrice
  refundOk : Bool
  ensOk : Bool
  keccakOfLabel : String → B32
  keccakOfPair : B32 → B32 → B32

/-- Pointwise update of a variant-2 agent mapping. -/
def setAgent2 (m : B32 → Option Agent2) (id : B32) (a : Agent2) : B32 → Option Agent2 :=
  fun j => if j = id then some a else m j

/-- `_isValidStrategy` (variant 2): a pure field check, no oracle probe. -/
def isValidStrategy2 (s : TradingStrategy) : Bool :=
  decide (s.priceFeedId ≠ 0) && decide (0 < s.triggerPrice) &&
  decide (s.tokenIn ≠ 0) && decide (s.tokenOut ≠ 0) &&
  decide (s.tokenIn ≠ s.tokenOut)

/-- `createAgent` (variant 2): reject an existing id, check the strategy
fields, probe the price feed (`_validatePriceFeed`, `InvalidPriceFeed` on
failure), bind the ENS subname, store the agent (strategy verbatim), and
index it. -/
def createAgent2 (env : Env2) (st : Registry2State) (sender : Addr) (agentId : B32)
    (ensLabel : String) (strategy : TradingStrategy) :
    Except Err (Registry2State × B32) :=
  match st.agents agentId with
  | some _ => .error .agentExists
  | none =>
    if isValidStrategy2 strategy = false then .error .invalidStrategy
    else if (env.getPriceUnsafe strategy.priceFeedId).isNone then .error .invalidPriceFeed
    else
      let label := env.keccakOfLabel ensLabel
      let ensNode := env.keccakOfPair st.baseNode label
      if env.ensOk = false then .error .externalCallFailed
      else
        let agent : Agent2 :=
          { owner := sender
            ensNode := ensNode
            ensName := ensLabel ++ ".agentrade.eth"
            strategy := strategy
            createdAt := env.now }
        let st' : Registry2State :=
          { st with
            agents := setAgent2 st.agents agentId agent
            userAgents := fun u =>
              if u = sender then st.userAgents sender ++ [agentId]
              else st.userAgents u
            ensNodeToAgentId := fun n => if n = ensNode then agentId else st.ensNodeToAgentId n
            agentCount := st.agentCount + 1 }
        .ok (st', ensNode)

/-- `updateStrategy` (variant 2): owner-only wholesale strategy replacement
after field validation and a feed probe. -/
def updateStrategy2 (env : Env2) (st : Registry2State) (sender : Addr) (agentId : B32)
    (newStrategy : TradingStrategy) : Except Err Registry2State :=
  match st.agents agentId with
  | none => .error .agentNotFound
  | some agent =>
    if agent.owner ≠ sender then .error .unauthorized
    else if isValidStrategy2 newStrategy = false then .error .invalidStrategy
    else if (env.getPriceUnsafe newStrategy.priceFeedId).isNone then .error .invalidPriceFeed
    else .ok { st with agents := setAgent2 st.agents agentId { agent with strategy := newStrategy } }

/-- `checkAndExecuteTrigger` (variant 2): load the agent, require it active,
optionally pay for and apply a Pyth update (`require(msg.value >= fee)`),
fetch the price no older than 300 s, require a non-zero publish time, check
the cooldown, convert the price, require the trigger met, commit
`lastExecuted = block.timestamp`, and finally refund any excess fee — a
failing refund reverts the whole call. -/
def checkAndExecuteTrigger (env : Env2) (st : Registry2State) (agentId : B32)
    (hasUpdateData : Bool) : Except Err Registry2State :=
  match st.agents agentId with
  | none => .error .agentNotFound
  | some agent =>
    if agent.strategy.isActive = false then .error .strategyNotActive
    else if hasUpdateData ∧ env.msgValue < env.updateFee then .error .insufficientFee
    else if hasUpdateData ∧ env.updateOk = false then .error .externalCallFailed
    else
      match env.priceNoOlderThan agent.strategy.priceFeedId 300 with
      | none => .error .stalePrice
      | some pr =>
        if pr.publishTime = 0 then .error .priceNotUpdated
        else if cooldownActive agent.strategy env.now then .error .cooldownNotExpired
        else
          match convertPriceToUint pr.price pr.expo with
          | .error e => .error e
          | .ok currentPrice =>
            if triggerMet agent.strategy currentPrice = false then .error .triggerNotMet
            else
              let agent' := { agent with strategy := { agent.strategy with lastExecuted := env.now } }
              let st' := { st with agents := setAgent2 st.agents agentId agent' }
              if hasUpdateData ∧ env.updateFee < env.msgValue then
                if env.refundOk then .ok st' else .error .refundFailed
              else .ok st'

/-- The post-transaction state of a `checkAndExecuteTrigger` call (a revert
leaves storage unchanged). -/
def runCheckAndExecuteTrigger (env : Env2) (st : Registry2State) (agentId : B32)
    (hasUpdateData : Bool) : Registry2State :=
  match checkAndExecuteTrigger env st agentId hasUpdateData with
  | .ok st' => st'
  | .error _ => st

/-- `activateAgent` (variant 2). -/
def activateAgent2 (st : Registry2State) (sender : Addr) (agentId : B32) :
    Except Err Registry2State :=
  match st.agents agentId with
  | none => .error .agentNotFound
  | some agent =>
    if agent.owner ≠ sender then .error .unauthorized
    else
      let agent' := { agent with strategy := { agent.strategy with isActive := true } }
      .ok { st with agents := setAgent2 st.agents agentId agent' }

/-- `deactivateAgent` (variant 2). -/
def deactivateAgent2 (st : Registry2State) (sender : Addr) (agentId : B32) :
    Except Err Registry2State :=
  match st.agents agentId with
  | none => .error .agentNotFound
  | some agent =>
    if agent.owner ≠ sender then .error .unauthorized
    else
      let agent' := { agent with strategy := { agent.strategy with isActive := false } }
      .ok { st with agents := setAgent2 st.agents agentId agent' }

/-- `_removeFromUserAgents`: overwrite the first occurrence of `agentId`
with the list's last element and pop the last element; a no-op when the id
is absent. -/
def swapRemoveFirst (l : List B32) (agentId : B32) : List B32 :=
  match l.findIdx? (· = agentId) with
  | none => l
  | some i => (l.set i (l.getLastD 0)).dropLast

/-- `transferAgentOwnership` (variant 2): non-zero new owner, owner-only;
removes the id from the caller's index, appends it to the new owner's
index, and rewrites the owner field. -/
def transferAgentOwnership (st : Registry2State) (sender : Addr) (agentId : B32)
    (newOwner : Addr) : Except Err Registry2State :=
  if newOwner = 0 then .error .invalidAddress
  else
    match st.agents agentId with
    | none => .error .agentNotFound
    | some agent =>
      if agent.owner ≠ sender then .error .unauthorized
      else
        let u1 : Addr → List B32 := fun u =>
          if u = sender then swapRemoveFirst (st.userAgents sender) agentId
          else st.userAgents u
        let u2 : Addr → List B32 := fun u =>
          if u = newOwner then u1 newOwner ++ [agentId] else u1 u
        .ok { st with
              agents := setAgent2 st.agents agentId { agent with owner := newOwner }
              userAgents := u2 }

/-- One external call against variant 1 of the registry. -/
inductive Op1 where
  | create (sender : Addr) (agentId : B32) (ensLabel : String) (s : TradingStrategy)
  | update (sender : Addr) (agentId : B32) (s : TradingStrategy)
  | activate (sender : Addr) (agentId : B32)
  | deactivate (sender : Addr) (agentId : B32)
  | exec (agentId : B32)
  | depositCall (sender : Addr) (agentId : B32) (token : Addr) (amount : Nat)
  | withdrawCall (sender : Addr) (agentId : B32) (token : Addr) (amount : Nat)
  | setMax (caller : Addr) (v : Nat)
  | setAge (caller : Addr) (v : Nat)

/-- Whether a variant-1 call is an `updateStrategy`. -/
def Op1.isUpdate : Op1 → Bool
  | .update _ _ _ => true
  | _ => false

/-- Transaction semantics of one variant-1 call: a revert leaves the
registry storage unchanged.  `deposit` and `withdraw` only move ERC20
balances, never registry storage, so on the registry state they act as the
identity whether they succeed or revert. -/
def stepOp (env : Env) (st : RegistryState) : Op1 → RegistryState
  | .create sender agentId ensLabel s =>
    match createAgent env st sender agentId ensLabel s with
    | .ok (st', _) => st'
    | .error _ => st
  | .update sender agentId s =>
    match updateStrategy env st sender agentId s with
    | .ok st' => st'
    | .error _ => st
  | .activate sender agentId =>
    match activateAgent st sender agentId with
    | .ok st' => st'
    | .error _ => st
  | .deactivate sender agentId =>
    match deactivateAgent st sender agentId with
    | .ok st' => st'
    | .error _ => st
  | .exec agentId => runExecuteSwap env st agentId
  | .depositCall _ _ _ _ => st
  | .withdrawCall _ _ _ _ => st
  | .setMax caller v =>
    match setMaxAgentsPerCheck st caller v with
    | .ok st' => st'
    | .error _ => st
  | .setAge caller v =>
    match setPriceMaxAge st caller v with
    | .ok st' => st'
    | .error _ => st

/-- Run a sequence of variant-1 calls, each under its own environment. -/
def runOps : List (Env × Op1) → RegistryState → RegistryState
  | [], st => st
  | (env, op) :: rest, st => runOps rest (stepOp env st op)

/-- One external call against variant 2 of the registry. -/
inductive Op2 where
  | create (sender : Addr) (agentId : B32) (ensLabel : String) (s : TradingStrategy)
  | update (sender : Addr) (agentId : B32) (s : TradingStrategy)
  | trigger (agentId : B32) (hasUpdateData : Bool)
  | activate (sender : Addr) (agentId : B32)
  | deactivate (sender : Addr) (agentId : B32)
  | transfer (sender : Addr) (agentId : B32) (newOwner : Addr)

/-- Whether a variant-2 call is an `updateStrategy`. -/
def Op2.isUpdate : Op2 → Bool
  | .update _ _ _ => true
  | _ => false

/-- Transaction semantics of one variant-2 call (a revert leaves the
registry storage unchanged). -/
def stepOp2 (env : Env2) (st : Registry2State) : Op2 → Registry2State
  | .create sender agentId ensLabel s =>
    match createAgent2 env st sender agentId ensLabel s with
    | .ok (st', _) => st'
    | .error _ => st
  | .update sender agentId s =>
    match updateStrategy2 env st sender agentId s with
    | .ok st' => st'
    | .error _ => st
  | .trigger agentId hasUpdateData => runCheckAndExecuteTrigger env st agentId hasUpdateData
  | .activate sender agentId =>
    match activateAgent2 st sender agentId with
    | .ok st' => st'
    | .error _ => st
  | .deactivate sender agentId =>
    match deactivateAgent2 st sender agentId with
    | .ok st' => st'
    | .error _ => st
  | .transfer sender agentId newOwner =>
    match transferAgentOwnership st sender agentId newOwner with
    | .ok st' => st'
    | .error _ => st

/-- Run a sequence of variant-2 calls, each under its own environment. -/
def runOps2 : List (Env2 × Op2) → Registry2State → Registry2State
  | [], st => st
  | (env, op) :: rest, st => runOps2 rest (stepOp2 env st op)

/-! ## Helper lemmas -/

/-- The storage write of a successful `executeSwap` commit:
`lastExecuted = block.timestamp` and `totalExecutions + 1`. -/
def commitAgent (a : Agent) (now : Nat) : Agent :=
  { a with
    strategy := { a.strategy with lastExecuted := now }
    totalExecutions := a.totalExecutions + 1 }

/-- An `executeSwap` call on an existing, active agent whose cooldown gate
fires rejects with `CooldownActive`. -/
theorem executeSwap_cooldown_err (env : Env) (st : RegistryState) (agentId : B32)
    (a : Agent) (hA : st.agents agentId = some a) (hAct : a.strategy.isActive = true)
    (hCd : cooldownActive a.strategy env.now = true) :
    executeSwap env st agentId = .error .cooldownActive := by
  unfold executeSwap
  rw [hA]
  simp [hAct, hCd]

/-- Inversion of a successful `executeSwap`: the agent existed, was active,
was past its cooldown, and the post-state rewrites exactly its
`lastExecuted` and `totalExecutions`. -/
theorem executeSwap_ok_elim (env : Env) (st : RegistryState) (agentId : B32)
    (st' : RegistryState) (r : Nat)
    (h : executeSwap env st agentId = .ok (st', r)) :
    ∃ a, st.agents agentId = some a ∧ a.strategy.isActive = true ∧
      cooldownActive a.strategy env.now = false ∧
      st' = { st with agents := setAgent st.agents agentId (commitAgent a env.now) } := by
  simp only [executeSwap] at h
  split at h
  · exact absurd h (by simp)
  next a hA =>
    split at h
    · exact absurd h (by simp)
    next hAct =>
      split at h
      · exact absurd h (by simp)
      next hCd =>
        split at h
        · exact absurd h (by simp)
        next pr hPr =>
          split at h
          · exact absurd h (by simp)
          next cp hCv =>
            split at h
            · exact absurd h (by simp)
            next hTr =>
              split at h
              · exact absurd h (by simp)
              next hBal =>
                split at h
                · exact absurd h (by simp)
                next ra hSw =>
                  simp only [Except.ok.injEq, Prod.mk.injEq] at h
                  exact ⟨a, hA, by simpa using hAct, by simpa using hCd, h.1.symm⟩

/-! ## C4 — trigger evaluation -/

/-- C4: for every strategy and normalized price, `triggerMet` is `true` iff
(`triggerAbove` and `price ≥ triggerPrice`) or (not `triggerAbove` and
`price ≤ triggerPrice`); at `price = triggerPrice` the result is `true`
regardless of `triggerAbove`. -/
theorem c4_trigger_evaluation :
    (∀ (s : TradingStrategy) (p : Nat),
      triggerMet s p = true ↔
        ((s.triggerAbove = true ∧ s.triggerPrice ≤ p) ∨
         (s.triggerAbove = false ∧ p ≤ s.triggerPrice))) ∧
    (∀ s : TradingStrategy, triggerMet s s.triggerPrice = true) := by
  constructor
  · intro s p
    unfold triggerMet
    cases h : s.triggerAbove <;> simp [h]
  · intro s
    unfold triggerMet
    cases h : s.triggerAbove <;> simp

/-! ## C5 — cooldown eligibility -/

/-- C5 (amended): the cooldown gate passes iff
`now ≥ lastExecuted + cooldownPeriod`; with `cooldownPeriod = 3600` and
`lastExecuted = T` an attempt at `T + 3599` is rejected and one at
`T + 3600` passes; a never-executed agent (`lastExecuted = 0`) passes the
gate iff `now ≥ cooldownPeriod` (not unconditionally); and `executeSwap` on
an existing, active agent whose gate fires rejects with `CooldownActive`. -/
theorem c5_cooldown_eligibility :
    (∀ (s : TradingStrategy) (now : Nat),
      cooldownActive s now = false ↔ s.lastExecuted + s.cooldownPeriod ≤ now) ∧
    (∀ (s : TradingStrategy) (T : Nat), s.cooldownPeriod = 3600 → s.lastExecuted = T →
      cooldownActive s (T + 3599) = true ∧ cooldownActive s (T + 3600) = false) ∧
    (∀ (s : TradingStrategy) (now : Nat), s.lastExecuted = 0 →
      (cooldownActive s now = false ↔ s.cooldownPeriod ≤ now)) ∧
    (∀ (env : Env) (st : RegistryState) (agentId : B32) (a : Agent),
      st.agents agentId = some a → a.strategy.isActive = true →
      cooldownActive a.strategy env.now = true →
      executeSwap env st agentId = .error .cooldownActive) := by
  refine ⟨?_, ?_, ?_, ?_⟩
  · intro s now
    unfold cooldownActive
    simp [Nat.not_lt]
  · intro s T h1 h2
    unfold cooldownActive
    constructor <;> simp [h1, h2]
  · intro s now h
    unfold cooldownActive
    simp [h, Nat.not_lt]
  · intro env st agentId a hA hAct hCd
    exact executeSwap_cooldown_err env st agentId a hA hAct hCd

/-- Concrete strategy for the C5 scenarios: `cooldownPeriod = 3600`,
`lastExecuted = 7`. -/
def c5strat : TradingStrategy :=
  { priceFeedId := 1, triggerPrice := 100, triggerAbove := true, tokenIn := 11,
    tokenOut := 12, amountIn := 5, minReturnAmount := 1, isActive := true,
    lastExecuted := 7, cooldownPeriod := 3600 }

/-- Witness for C5 at `T = 7`: rejected at `T + 3599`, eligible at
`T + 3600`, and the `lastExecuted = 0` gate at `now = 4000 ≥ 3600`. -/
theorem c5_witness :
    (cooldownActive c5strat (7 + 3599) = true ∧ cooldownActive c5strat (7 + 3600) = false) ∧
    (cooldownActive { c5strat with lastExecuted := 0 } 4000 = false ↔
      ({ c5strat with lastExecuted := 0 } : TradingStrategy).cooldownPeriod ≤ 4000) :=
  ⟨c5_cooldown_eligibility.2.1 c5strat 7 rfl rfl,
   c5_cooldown_eligibility.2.2.1 { c5strat with lastExecuted := 0 } 4000 rfl⟩

/-- Never-executed agent used by the C5 counterexample. -/
def c5xagent : Agent :=
  { owner := 5, ensNode := 3, ensName := "a.agenttrade.eth",
    strategy := { c5strat with lastExecuted := 0 }, createdAt := 0, totalExecutions := 0 }

/-- Registry holding only `c5xagent` under id `1`. -/
def c5xst : RegistryState :=
  { agents := fun j => if j = 1 then some c5xagent else none
    userAgents := fun _ => []
    allAgentIds := [1]
    agentCount := 1
    maxAgentsPerCheck := 50
    priceMaxAge := 300
    baseNode := 9 }

/-- Environment at `block.timestamp = 10` for the C5 counterexample. -/
def c5xenv : Env :=
  { now := 10
    getPriceUnsafe := fun _ => some ⟨150, -8, 9⟩
    priceNoOlderThan := fun _ _ => some ⟨150, -8, 9⟩
    balanceOf := fun _ => 50
    swap := fun _ => some 42
    ensOk := true
    approveOk := true
    keccakOfLabel := fun _ => 0
    keccakOfPair := fun _ _ => 0 }

/-- C5 counterexample: a never-executed agent (`lastExecuted = 0`,
`cooldownPeriod = 3600`) is *not* always eligible — at `now = 10` its
execution attempt is rejected with `CooldownActive`. -/
theorem c5_counterexample :
    c5xagent.strategy.lastExecuted = 0 ∧
    cooldownActive c5xagent.strategy c5xenv.now = true ∧
    executeSwap c5xenv c5xst 1 = .error .cooldownActive := by
  refine ⟨rfl, rfl, ?_⟩
  exact executeSwap_cooldown_err c5xenv c5xst 1 c5xagent rfl rfl rfl

/-! ## C10 — unauthenticated configuration setters -/

/-- C10: `setMaxAgentsPerCheck` and `setPriceMaxAge` perform no
authorization check — for every caller they succeed (never `Unauthorized`)
and store the supplied value. -/
theorem c10_setters_no_auth :
    ∀ (st : RegistryState) (caller : Addr) (v : Nat),
      setMaxAgentsPerCheck st caller v = .ok { st with maxAgentsPerCheck := v } ∧
      setPriceMaxAge st caller v = .ok { st with priceMaxAge := v } :=
  fun _ _ _ => ⟨rfl, rfl⟩

/-! ## C6 — price normalization -/

/-- C6 (amended): `_convertPrice` fails with the invalid-price error when
`mantissa ≤ 0`; for `mantissa > 0` it returns the mantissa unchanged when
`exponent < 0`, and returns `mantissa * 10 ^ exponent` when `exponent ≥ 0`
*provided* `10 ^ exponent` and the product stay below `2 ^ 256` — otherwise
the checked arithmetic aborts the call with an overflow panic.  Variant 2's
`_convertPriceToUint` computes the same function. -/
theorem c6_convertPrice_normalization :
    (∀ p e : Int, p ≤ 0 → convertPrice p e = .error .invalidPrice) ∧
    (∀ p e : Int, 0 < p → e < 0 → convertPrice p e = .ok p.toNat) ∧
    (∀ p e : Int, 0 < p → 0 ≤ e →
      10 ^ e.toNat < uint256Bound → p.toNat * 10 ^ e.toNat < uint256Bound →
      convertPrice p e = .ok (p.toNat * 10 ^ e.toNat)) ∧
    (∀ p e : Int, 0 < p → 0 ≤ e → uint256Bound ≤ p.toNat * 10 ^ e.toNat →
      convertPrice p e = .error .arithmeticOverflow) ∧
    (∀ p e : Int, convertPriceToUint p e = convertPrice p e) := by
  refine ⟨?_, ?_, ?_, ?_, ?_⟩
  · intro p e hp
    simp only [convertPrice, if_pos hp]
  · intro p e hp he
    simp only [convertPrice, if_neg (by omega : ¬ p ≤ 0), if_pos he]
  · intro p e hp he h1 h2
    simp only [convertPrice, if_neg (by omega : ¬ p ≤ 0),
      if_neg (by omega : ¬ e < 0), if_pos h1, if_pos h2]
  · intro p e hp he hov
    simp only [convertPrice, if_neg (by omega : ¬ p ≤ 0), if_neg (by omega : ¬ e < 0)]
    by_cases h1 : 10 ^ e.toNat < uint256Bound
    · rw [if_pos h1, if_neg (by omega)]
    · rw [if_neg h1]
  · intro p e
    simp only [convertPrice, convertPriceToUint]

/-- Witness for C6: the mantissa-guard, the negative-exponent identity, the
in-range scaling and the equality of the two conversion routines, each at a
concrete input. -/
theorem c6_witness :
    convertPrice (-5) (-8) = .error .invalidPrice ∧
    convertPrice 150 (-8) = .ok 150 ∧
    convertPrice 3 2 = .ok 300 ∧
    convertPriceToUint 150 (-8) = convertPrice 150 (-8) :=
  ⟨c6_convertPrice_normalization.1 (-5) (-8) (by norm_num),
   c6_convertPrice_normalization.2.1 150 (-8) (by norm_num) (by norm_num),
   c6_convertPrice_normalization.2.2.1 3 2 (by norm_num) (by norm_num)
     (by decide) (by decide),
   c6_convertPrice_normalization.2.2.2.2 150 (-8)⟩

/-- C6 counterexample: at mantissa `1 > 0` and exponent `78 ≥ 0` the claim
demands the value `1 * 10 ^ 78`, but `10 ** 78` exceeds `2 ^ 256 - 1`, so
the Solidity checked exponentiation reverts: `_convertPrice` aborts with an
overflow instead of returning. -/
theorem c6_counterexample :
    convertPrice 1 78 = .error .arithmeticOverflow ∧
    convertPrice 1 78 ≠ .ok ((1 : Int).toNat * 10 ^ (78 : Int).toNat) := by
  have h : convertPrice 1 78 = .error .arithmeticOverflow := by
    simp only [convertPrice]
    rw [if_neg (by decide : ¬ (1 : Int) ≤ 0), if_neg (by decide : ¬ (78 : Int) < 0),
      if_neg (by decide : ¬ (10 : Nat) ^ (78 : Int).toNat < uint256Bound)]
  exact ⟨h, by rw [h]; exact fun hc => Except.noConfusion hc⟩

/-! ## C1 — swap failure leaves the agent unchanged -/

/-- C1: when the loading, activity, cooldown, trigger and balance checks
all pass but the 1inch swap call fails, `executeSwap` terminates with
`SwapFailed` and the post-transaction registry state — in particular the
agent's `lastExecuted` and `totalExecutions` — equals the pre-call state. -/
theorem c1_swap_failure_atomicity
    (env : Env) (st : RegistryState) (agentId : B32) (a : Agent)
    (pr : PythPrice) (cp : Nat)
    (hA : st.agents agentId = some a)
    (hAct : a.strategy.isActive = true)
    (hCd : cooldownActive a.strategy env.now = false)
    (hPr : env.priceNoOlderThan a.strategy.priceFeedId st.priceMaxAge = some pr)
    (hCv : convertPrice pr.price pr.expo = .ok cp)
    (hTr : triggerMet a.strategy cp = true)
    (hBal : ¬(env.balanceOf a.strategy.tokenIn < resolvedAmount env a.strategy ∨
        resolvedAmount env a.strategy = 0))
    (hSw : env.swap (mkSwapDesc a.strategy (resolvedAmount env a.strategy)) = none) :
    executeSwap env st agentId = .error .swapFailed ∧
    runExecuteSwap env st agentId = st ∧
    (runExecuteSwap env st agentId).agents agentId = some a := by
  have h : executeSwap env st agentId = .error .swapFailed := by
    simp only [executeSwap]
    rw [hA]
    simp only [hAct, Bool.true_eq_false, if_false, hCd, Bool.false_eq_true, hPr, hCv,
      hTr, if_neg hBal, hSw]
  refine ⟨h, ?_, ?_⟩
  · unfold runExecuteSwap
    rw [h]
  · unfold runExecuteSwap
    rw [h, hA]

/-- The agent used by the C1 witness (active, eligible, triggered, funded). -/
def c1agent : Agent :=
  { owner := 5, ensNode := 3, ensName := "b.agenttrade.eth"
    strategy :=
      { priceFeedId := 7, triggerPrice := 100, triggerAbove := false, tokenIn := 11,
        tokenOut := 12, amountIn := 5, minReturnAmount := 1, isActive := true,
        lastExecuted := 0, cooldownPeriod := 10 }
    createdAt := 0, totalExecutions := 0 }

/-- Registry holding only `c1agent` under id `1`. -/
def c1st : RegistryState :=
  { agents := fun j => if j = 1 then some c1agent else none
    userAgents := fun _ => []
    allAgentIds := [1]
    agentCount := 1
    maxAgentsPerCheck := 50
    priceMaxAge := 300
    baseNode := 9 }

/-- Environment for the C1 witness: all checks pass, but the router call
reverts. -/
def c1env : Env :=
  { now := 1000
    getPriceUnsafe := fun _ => some ⟨90, -8, 999⟩
    priceNoOlderThan := fun _ _ => some ⟨90, -8, 999⟩
    balanceOf := fun _ => 50
    swap := fun _ => none
    ensOk := true
    approveOk := true
    keccakOfLabel := fun _ => 0
    keccakOfPair := fun _ _ => 0 }

/-- Witness for C1 at a concrete failing swap. -/
theorem c1_witness :
    executeSwap c1env c1st 1 = .error .swapFailed ∧
    runExecuteSwap c1env c1st 1 = c1st ∧
    (runExecuteSwap c1env c1st 1).agents 1 = some c1agent :=
  c1_swap_failure_atomicity c1env c1st 1 c1agent ⟨90, -8, 999⟩ 90
    rfl rfl rfl rfl rfl rfl (by decide) rfl

/-! ## C2 — cooldown race: at most one commit -/

/-- C2 (amended): for an agent with a *positive* `cooldownPeriod`, two
execution attempts sharing a block timestamp serialize so that the one that
commits first makes the other fail the re-validated cooldown check — the
second attempt reverts with `CooldownActive` and changes nothing, so
exactly one attempt commits.  (With `cooldownPeriod = 0` both attempts can
commit; see the counterexample.) -/
theorem c2_cooldown_serialization
    (env1 env2 : Env) (st st1 : RegistryState) (agentId : B32) (r1 : Nat) (a : Agent)
    (hA : st.agents agentId = some a)
    (hCp : 0 < a.strategy.cooldownPeriod)
    (h1 : executeSwap env1 st agentId = .ok (st1, r1))
    (hNow : env2.now = env1.now) :
    executeSwap env2 st1 agentId = .error .cooldownActive ∧
    runExecuteSwap env2 st1 agentId = st1 := by
  obtain ⟨b, hB, hAct, _, hSt⟩ := executeSwap_ok_elim env1 st agentId st1 r1 h1
  rw [hA] at hB
  injection hB with hab
  subst hab
  have hA1 : st1.agents agentId = some (commitAgent a env1.now) := by
    rw [hSt]
    simp [setAgent]
  have hAct1 : (commitAgent a env1.now).strategy.isActive = true := by
    simpa [commitAgent] using hAct
  have hCd1 : cooldownActive (commitAgent a env1.now).strategy env2.now = true := by
    simp only [commitAgent, cooldownActive, hNow]
    simpa using by omega
  have h2 := executeSwap_cooldown_err env2 st1 agentId (commitAgent a env1.now) hA1 hAct1 hCd1
  refine ⟨h2, ?_⟩
  unfold runExecuteSwap
  rw [h2]

/-- Agent for the C2 witness: positive cooldown, eligible and triggered. -/
def c2agent : Agent :=
  { owner := 5, ensNode := 3, ensName := "c.agenttrade.eth"
    strategy :=
      { priceFeedId := 7, triggerPrice := 100, triggerAbove := false, tokenIn := 11,
        tokenOut := 12, amountIn := 5, minReturnAmount := 1, isActive := true,
        lastExecuted := 0, cooldownPeriod := 10 }
    createdAt := 0, totalExecutions := 0 }

/-- Registry holding only `c2agent` under id `1`. -/
def c2st : RegistryState :=
  { agents := fun j => if j = 1 then some c2agent else none
    userAgents := fun _ => []
    allAgentIds := [1]
    agentCount := 1
    maxAgentsPerCheck := 50
    priceMaxAge := 300
    baseNode := 9 }

/-- Environment for the C2 witness: every check passes and the router
fills the order. -/
def c2env : Env :=
  { now := 1000
    getPriceUnsafe := fun _ => some ⟨90, -8, 999⟩
    priceNoOlderThan := fun _ _ => some ⟨90, -8, 999⟩
    balanceOf := fun _ => 50
    swap := fun _ => some 42
    ensOk := true
    approveOk := true
    keccakOfLabel := fun _ => 0
    keccakOfPair := fun _ _ => 0 }

/-- State after the first (committing) attempt of the C2 witness. -/
def c2st1 : RegistryState :=
  { c2st with agents := setAgent c2st.agents 1 (commitAgent c2agent 1000) }

/-- Witness for C2: a same-timestamp second attempt after a committed first
attempt reverts with `CooldownActive` and leaves the state unchanged. -/
theorem c2_witness :
    executeSwap c2env c2st1 1 = .error .cooldownActive ∧
    runExecuteSwap c2env c2st1 1 = c2st1 :=
  c2_cooldown_serialization c2env c2env c2st c2st1 1 42 c2agent rfl (by decide) rfl rfl

/-- Agent for the C2 counterexample: `cooldownPeriod = 0`, otherwise
active, eligible and triggered. -/
def c2xagent : Agent :=
  { owner := 5, ensNode := 3, ensName := "d.agenttrade.eth"
    strategy :=
      { priceFeedId := 7, triggerPrice := 100, triggerAbove := false, tokenIn := 11,
        tokenOut := 12, amountIn := 5, minReturnAmount := 1, isActive := true,
        lastExecuted := 0, cooldownPeriod := 0 }
    createdAt := 0, totalExecutions := 0 }

/-- Registry holding only `c2xagent` under id `1`. -/
def c2xst : RegistryState :=
  { agents := fun j => if j = 1 then some c2xagent else none
    userAgents := fun _ => []
    allAgentIds := [1]
    agentCount := 1
    maxAgentsPerCheck := 50
    priceMaxAge := 300
    baseNode := 9 }

/-- Environment for the C2 counterexample (same block timestamp for both
attempts, router fills both orders). -/
def c2xenv : Env :=
  { now := 1000
    getPriceUnsafe := fun _ => some ⟨90, -8, 999⟩
    priceNoOlderThan := fun _ _ => some ⟨90, -8, 999⟩
    balanceOf := fun _ => 50
    swap := fun _ => some 42
    ensOk := true
    approveOk := true
    keccakOfLabel := fun _ => 0
    keccakOfPair := fun _ _ => 0 }

/-- State after the first attempt of the C2 counterexample. -/
def c2xstA : RegistryState :=
  { c2xst with agents := setAgent c2xst.agents 1 (commitAgent c2xagent 1000) }

/-- State after the second attempt of the C2 counterexample. -/
def c2xstB : RegistryState :=
  { c2xstA with agents := setAgent c2xstA.agents 1 (commitAgent (commitAgent c2xagent 1000) 1000) }

/-- C2 counterexample: with `cooldownPeriod = 0` an active, eligible,
triggered agent lets *two* same-timestamp execution attempts both reach the
committed state — `totalExecutions` ends at `2` — so the claim's "never two
commits" fails on the code. -/
theorem c2_counterexample :
    c2xagent.strategy.isActive = true ∧
    cooldownActive c2xagent.strategy c2xenv.now = false ∧
    executeSwap c2xenv c2xst 1 = .ok (c2xstA, 42) ∧
    executeSwap c2xenv c2xstA 1 = .ok (c2xstB, 42) ∧
    c2xstB.agents 1 = some (commitAgent (commitAgent c2xagent 1000) 1000) ∧
    (commitAgent (commitAgent c2xagent 1000) 1000).totalExecutions = 2 :=
  ⟨rfl, rfl, rfl, rfl, rfl, rfl⟩

/-! ## C8 — create/get round trip -/

/-- Inversion of a successful `createAgent` (variant 1): the id was free,
the strategy validated, and the post-state stores an agent whose `strategy`
is the input strategy verbatim and whose `totalExecutions` is `0`. -/
theorem createAgent_ok_elim (env : Env) (st : RegistryState) (sender : Addr)
    (agentId : B32) (ensLabel : String) (s : TradingStrategy)
    (st2 : RegistryState) (node : B32)
    (h : createAgent env st sender agentId ensLabel s = .ok (st2, node)) :
    st.agents agentId = none ∧ validateStrategy env s = true ∧
    ∃ A : Agent, A.strategy = s ∧ A.totalExecutions = 0 ∧
      st2.agents = setAgent st.agents agentId A := by
  simp only [createAgent] at h
  split at h
  · exact absurd h (by simp)
  next hA =>
    split at h
    · exact absurd h (by simp)
    next hVal =>
      split at h
      · exact absurd h (by simp)
      next hEns =>
        split at h
        · exact absurd h (by simp)
        next hAppr =>
          simp only [Except.ok.injEq, Prod.mk.injEq] at h
          refine ⟨hA, by simpa using hVal,
            ⟨{ owner := sender
               ensNode := env.keccakOfPair st.baseNode (env.keccakOfLabel ensLabel)
               ensName := ensLabel ++ ".agenttrade.eth"
               strategy := s
               createdAt := env.now
               totalExecutions := 0 }, rfl, rfl, ?_⟩⟩
          rw [← h.1]

/-- C8 (amended): a successful `createAgent` immediately followed by
`getAgent` returns a record whose `strategy` equals the input strategy
verbatim and whose `totalExecutions` is `0`; consequently the returned
`strategy.lastExecuted` is `0` exactly when the *input* strategy's
`lastExecuted` was `0` (the field is stored as supplied, not reset). -/
theorem c8_create_get_roundtrip (env : Env) (st : RegistryState) (sender : Addr)
    (agentId : B32) (ensLabel : String) (s : TradingStrategy)
    (st2 : RegistryState) (node : B32)
    (h : createAgent env st sender agentId ensLabel s = .ok (st2, node)) :
    ∃ a, getAgent st2 agentId = .ok a ∧ a.strategy = s ∧ a.totalExecutions = 0 ∧
      (s.lastExecuted = 0 → a.strategy.lastExecuted = 0) := by
  obtain ⟨-, -, A, hstrat, hexec, hag⟩ :=
    createAgent_ok_elim env st sender agentId ensLabel s st2 node h
  refine ⟨A, ?_, hstrat, hexec, fun h0 => by rw [hstrat]; exact h0⟩
  unfold getAgent
  rw [hag]
  simp [setAgent]

/-- Strategy for the C8 witness (valid fields, `lastExecuted = 0`). -/
def c8strat : TradingStrategy :=
  { priceFeedId := 7, triggerPrice := 100, triggerAbove := true, tokenIn := 11,
    tokenOut := 12, amountIn := 5, minReturnAmount := 1, isActive := true,
    lastExecuted := 0, cooldownPeriod := 3600 }

/-- Empty registry for the C8 witness and counterexample. -/
def c8st0 : RegistryState :=
  { agents := fun _ => none
    userAgents := fun _ => []
    allAgentIds := []
    agentCount := 0
    maxAgentsPerCheck := 50
    priceMaxAge := 300
    baseNode := 9 }

/-- Environment for the C8 witness and counterexample (feed resolvable,
external calls succeed, keccak modelled concretely). -/
def c8env : Env :=
  { now := 77
    getPriceUnsafe := fun _ => some ⟨90, -8, 70⟩
    priceNoOlderThan := fun _ _ => some ⟨90, -8, 70⟩
    balanceOf := fun _ => 50
    swap := fun _ => some 42
    ensOk := true
    approveOk := true
    keccakOfLabel := fun _ => 3
    keccakOfPair := fun a b => a + b }

/-- Registry state after the C8 witness `createAgent`. -/
def c8st2 : RegistryState :=
  { agents := setAgent c8st0.agents 1
      { owner := 5, ensNode := 12, ensName := "bot.agenttrade.eth",
        strategy := c8strat, createdAt := 77, totalExecutions := 0 }
    userAgents := fun u => if u = 5 then c8st0.userAgents 5 ++ [1] else c8st0.userAgents u
    allAgentIds := c8st0.allAgentIds ++ [1]
    agentCount := c8st0.agentCount + 1
    maxAgentsPerCheck := 50
    priceMaxAge := 300
    baseNode := 9 }

/-- Witness for C8 at a concrete successful creation. -/
theorem c8_witness :
    ∃ a, getAgent c8st2 1 = .ok a ∧ a.strategy = c8strat ∧ a.totalExecutions = 0 ∧
      (c8strat.lastExecuted = 0 → a.strategy.lastExecuted = 0) :=
  c8_create_get_roundtrip c8env c8st0 5 1 "bot" c8strat c8st2 12 rfl

/-- Strategy for the C8 counterexample: every field the code validates is
valid, but the caller supplies `lastExecuted = 999`. -/
def c8xstrat : TradingStrategy :=
  { priceFeedId := 7, triggerPrice := 100, triggerAbove := true, tokenIn := 11,
    tokenOut := 12, amountIn := 5, minReturnAmount := 1, isActive := true,
    lastExecuted := 999, cooldownPeriod := 3600 }

/-- The stored agent of the C8 counterexample. -/
def c8xagent : Agent :=
  { owner := 5, ensNode := 12, ensName := "bot.agenttrade.eth",
    strategy := c8xstrat, createdAt := 77, totalExecutions := 0 }

/-- Registry state after the C8 counterexample `createAgent`. -/
def c8xst2 : RegistryState :=
  { agents := setAgent c8st0.agents 1 c8xagent
    userAgents := fun u => if u = 5 then c8st0.userAgents 5 ++ [1] else c8st0.userAgents u
    allAgentIds := c8st0.allAgentIds ++ [1]
    agentCount := c8st0.agentCount + 1
    maxAgentsPerCheck := 50
    priceMaxAge := 300
    baseNode := 9 }

/-- C8 counterexample: `createAgent` accepts a strategy with
`lastExecuted = 999` (the code validates only feed id, trigger price and
token addresses) and the immediate `getAgent` round trip returns
`strategy.lastExecuted = 999`, not `0` as the claim demands. -/
theorem c8_counterexample :
    createAgent c8env c8st0 5 1 "bot" c8xstrat = .ok (c8xst2, 12) ∧
    getAgent c8xst2 1 = .ok c8xagent ∧
    c8xagent.strategy = c8xstrat ∧
    c8xagent.totalExecutions = 0 ∧
    c8xagent.strategy.lastExecuted = 999 :=
  ⟨rfl, rfl, rfl, rfl, rfl⟩

/-! ## C9 — one shared token pool, no per-agent accounting -/

/-- C9: `getAgentBalance` returns the contract's whole balance of the token
for any existing agent id (so it is independent of the id); `deposit` moves
the caller's tokens into that single shared pool; and `withdraw` lets the
owner of *any* existing agent pull any amount of any token out of the pool —
the only checks are existence, ownership and the ERC20 balance, none tying
the token or amount to deposits made for that agent. -/
theorem c9_shared_pool :
    (∀ (st : RegistryState) (w : TokenWorld) (id1 id2 : B32) (token : Addr)
        (a1 a2 : Agent), st.agents id1 = some a1 → st.agents id2 = some a2 →
      getAgentBalance st w id1 token = .ok (w token registryAddr) ∧
      getAgentBalance st w id1 token = getAgentBalance st w id2 token) ∧
    (∀ (st : RegistryState) (w : TokenWorld) (sender : Addr) (agentId : B32)
        (token : Addr) (amount : Nat) (a : Agent),
      st.agents agentId = some a → a.owner = sender → sender ≠ registryAddr →
      amount ≤ w token sender →
      ∃ w2, deposit st w sender agentId token amount = .ok w2 ∧
        w2 token registryAddr = w token registryAddr + amount) ∧
    (∀ (st : RegistryState) (w : TokenWorld) (sender : Addr) (agentId : B32)
        (token : Addr) (amount : Nat) (a : Agent),
      st.agents agentId = some a → a.owner = sender → sender ≠ registryAddr →
      amount ≤ w token registryAddr →
      ∃ w2, withdraw st w sender agentId token amount = .ok w2 ∧
        w2 token sender = w token sender + amount ∧
        w2 token registryAddr = w token registryAddr - amount) := by
  refine ⟨?_, ?_, ?_⟩
  · intro st w id1 id2 token a1 a2 h1 h2
    unfold getAgentBalance
    rw [h1, h2]
    exact ⟨rfl, rfl⟩
  · intro st w sender agentId token amount a hA hOwn hNe hAmt
    have hOwn2 : ¬(a.owner ≠ sender) := by simp [hOwn]
    have hLt : ¬(w token sender < amount) := by omega
    simp only [deposit, hA, erc20Transfer, if_neg hOwn2, if_neg hLt]
    refine ⟨_, rfl, ?_⟩
    simp [setBal, hNe, Ne.symm hNe]
  · intro st w sender agentId token amount a hA hOwn hNe hAmt
    have hOwn2 : ¬(a.owner ≠ sender) := by simp [hOwn]
    have hLt : ¬(w token registryAddr < amount) := by omega
    simp only [withdraw, hA, erc20Transfer, if_neg hOwn2, if_neg hLt]
    refine ⟨_, rfl, ?_, ?_⟩
    · simp [setBal, hNe, Ne.symm hNe]
    · simp [setBal, hNe, Ne.symm hNe]

/-- Two agents with different owners, over one shared pool (C9 witness). -/
def c9agentA : Agent :=
  { owner := 5, ensNode := 3, ensName := "p.agenttrade.eth", strategy := c8strat,
    createdAt := 0, totalExecutions := 0 }

/-- Second agent (different owner) for the C9 witness. -/
def c9agentB : Agent :=
  { owner := 6, ensNode := 4, ensName := "q.agenttrade.eth", strategy := c8strat,
    createdAt := 0, totalExecutions := 0 }

/-- Registry with agents `1` (owner `5`) and `2` (owner `6`). -/
def c9st : RegistryState :=
  { agents := fun j => if j = 1 then some c9agentA else if j = 2 then some c9agentB else none
    userAgents := fun _ => []
    allAgentIds := [1, 2]
    agentCount := 2
    maxAgentsPerCheck := 50
    priceMaxAge := 300
    baseNode := 9 }

/-- Token balances for the C9 witness: the registry holds 100 of token 11,
owner 6 holds 40 of it. -/
def c9world : TokenWorld :=
  fun t h => if t = 11 ∧ h = registryAddr then 100 else if t = 11 ∧ h = 6 then 40 else 0

/-- Witness for C9: `getAgentBalance` is id-independent; owner 6 deposits
into the shared pool; and owner 6 can withdraw 100 of token 11 through
*their* agent even though the pool was (say) funded for agent 1. -/
theorem c9_witness :
    (getAgentBalance c9st c9world 1 11 = .ok (c9world 11 registryAddr) ∧
     getAgentBalance c9st c9world 1 11 = getAgentBalance c9st c9world 2 11) ∧
    (∃ w2, deposit c9st c9world 6 2 11 40 = .ok w2 ∧
      w2 11 registryAddr = c9world 11 registryAddr + 40) ∧
    (∃ w2, withdraw c9st c9world 6 2 11 100 = .ok w2 ∧
      w2 11 6 = c9world 11 6 + 100 ∧
      w2 11 registryAddr = c9world 11 registryAddr - 100) :=
  ⟨c9_shared_pool.1 c9st c9world 1 2 11 c9agentA c9agentB rfl rfl,
   c9_shared_pool.2.1 c9st c9world 6 2 11 40 c9agentB rfl rfl (by decide) (by decide),
   c9_shared_pool.2.2 c9st c9world 6 2 11 100 c9agentB rfl rfl (by decide) (by decide)⟩

/-! ## C7 — upkeep scan -/

/-- The claim's candidate condition, spelled out: the agent exists and is
active, its cooldown has elapsed, the resolved swap amount is non-zero and
covered by the `tokenIn` balance, a fresh price can be fetched and
converted, and the trigger evaluates to met. -/
def upkeepReady (env : Env) (st : RegistryState) (agentId : B32) : Prop :=
  ∃ a pr cp, st.agents agentId = some a ∧ a.strategy.isActive = true ∧
    cooldownActive a.strategy env.now = false ∧
    resolvedAmount env a.strategy ≠ 0 ∧
    resolvedAmount env a.strategy ≤ env.balanceOf a.strategy.tokenIn ∧
    env.priceNoOlderThan a.strategy.priceFeedId st.priceMaxAge = some pr ∧
    convertPrice pr.price pr.expo = .ok cp ∧
    triggerMet a.strategy cp = true

/-- The loop body marks an agent ready exactly under `upkeepReady`. -/
theorem upkeepExamine_ok_true_iff (env : Env) (st : RegistryState) (agentId : B32) :
    upkeepExamine env st agentId = .ok true ↔ upkeepReady env st agentId := by
  constructor
  · intro h
    simp only [upkeepExamine] at h
    split at h
    · exact absurd h (by simp)
    next a hA =>
      split at h
      · exact absurd h (by simp)
      next hSkip =>
        split at h
        · exact absurd h (by simp)
        next hBal =>
          split at h
          · exact absurd h (by simp)
          next pr hPr =>
            split at h
            · exact absurd h (by simp)
            next cp hCv =>
              push_neg at hSkip hBal
              refine ⟨a, pr, cp, hA, by simpa using hSkip.1, by simpa using hSkip.2,
                ?_, ?_, hPr, hCv, by simpa using h⟩
              · exact hBal.2
              · omega
  · rintro ⟨a, pr, cp, hA, hAct, hCd, hR0, hRle, hPr, hCv, hTr⟩
    have hSkip : ¬(a.strategy.isActive = false ∨ cooldownActive a.strategy env.now = true) := by
      simp [hAct, hCd]
    have hBal : ¬(env.balanceOf a.strategy.tokenIn < resolvedAmount env a.strategy ∨
        resolvedAmount env a.strategy = 0) := by omega
    simp only [upkeepExamine, hA, if_neg hSkip, if_neg hBal, hPr, hCv, hTr]

/-- Membership in the scan's accumulator-passing loop: under the budget
precondition the result is the accumulator extended by exactly the visited
ids whose examination returned `ok true`. -/
theorem upkeepScan_mem (env : Env) (st : RegistryState) (ids : List B32) :
    ∀ (acc l : List B32), acc.length + ids.length ≤ st.maxAgentsPerCheck →
    upkeepScan env st ids acc = .ok l →
    ∀ x, x ∈ l ↔ (x ∈ acc ∨ (x ∈ ids ∧ upkeepExamine env st x = .ok true)) := by
  induction ids with
  | nil =>
    intro acc l hlen h x
    simp only [upkeepScan] at h
    injection h with h
    subst h
    simp
  | cons id rest ih =>
    intro acc l hlen h x
    simp only [upkeepScan] at h
    rw [if_pos (by simp only [List.length_cons] at hlen; omega)] at h
    cases hEx : upkeepExamine env st id <;> rw [hEx] at h
    · exact absurd h (by simp)
    next b =>
      cases b
      · have hiff := ih acc l (by simp only [List.length_cons] at hlen; omega) h x
        rw [hiff]
        constructor
        · rintro (hx | ⟨hx, he⟩)
          · exact Or.inl hx
          · exact Or.inr ⟨List.mem_cons_of_mem _ hx, he⟩
        · rintro (hx | ⟨hx, he⟩)
          · exact Or.inl hx
          · rcases List.mem_cons.mp hx with rfl | hx2
            · rw [hEx] at he
              exact absurd he (by simp)
            · exact Or.inr ⟨hx2, he⟩
      · have hiff := ih (acc ++ [id]) l
          (by simp only [List.length_cons] at hlen; simp only [List.length_append,
            List.length_singleton]; omega) h x
        rw [hiff]
        simp only [List.mem_append, List.mem_cons, List.not_mem_nil, or_false]
        constructor
        · rintro ((hx | rfl) | ⟨hx, he⟩)
          · exact Or.inl hx
          · exact Or.inr ⟨Or.inl rfl, hEx⟩
          · exact Or.inr ⟨Or.inr hx, he⟩
        · rintro (hx | ⟨rfl | hx, he⟩)
          · exact Or.inl (Or.inl hx)
          · exact Or.inl (Or.inr rfl)
          · exact Or.inr ⟨hx, he⟩

/-- The scan never returns more ids than it was given plus the accumulator. -/
theorem upkeepScan_length (env : Env) (st : RegistryState) (ids : List B32) :
    ∀ (acc l : List B32), upkeepScan env st ids acc = .ok l →
    l.length ≤ acc.length + ids.length := by
  induction ids with
  | nil =>
    intro acc l h
    simp only [upkeepScan] at h
    injection h with h
    subst h
    simp
  | cons id rest ih =>
    intro acc l h
    simp only [upkeepScan] at h
    split at h
    · cases hEx : upkeepExamine env st id <;> rw [hEx] at h
      · exact absurd h (by simp)
      next b =>
        cases b
        · have := ih acc l h
          simp only [List.length_cons]
          omega
        · have := ih (acc ++ [id]) l h
          simp only [List.length_append, List.length_singleton] at this
          simp only [List.length_cons]
          omega
    · injection h with h
      subst h
      simp only [List.length_cons]
      omega

/-- `checkUpkeep` returns exactly the scan's candidate list (the
`(false, "")` branch coincides with an empty candidate list). -/
theorem checkUpkeep_ok_scan (env : Env) (st : RegistryState) (b : Bool) (l : List B32)
    (h : checkUpkeep env st = .ok (b, l)) :
    upkeepScan env st
      (st.allAgentIds.take (min st.allAgentIds.length st.maxAgentsPerCheck)) [] = .ok l := by
  simp only [checkUpkeep] at h
  cases hS : upkeepScan env st
      (st.allAgentIds.take (min st.allAgentIds.length st.maxAgentsPerCheck)) [] <;>
    rw [hS] at h
  · exact absurd h (by simp)
  next ready =>
    simp only [Except.ok.injEq] at h
    split at h
    · rw [Prod.mk.injEq] at h
      rw [h.2]
    · next hlen =>
      rw [Prod.mk.injEq] at h
      have hnil : ready = [] := List.length_eq_zero.mp (by omega)
      rw [← h.2, hnil]

/-- Taking `min l.length m` elements is the same as taking `m`. -/
theorem take_min_length (l : List B32) (m : Nat) :
    l.take (min l.length m) = l.take m := by
  rcases Nat.le_total l.length m with h | h
  · rw [Nat.min_eq_left h, List.take_length, List.take_of_length_le h]
  · rw [Nat.min_eq_right h]

/-- C7 (amended): `checkUpkeep` examines only the *first*
`maxAgentsPerCheck` stored agent ids; when it completes, an agent id is in
the candidate list iff it lies in that window and satisfies the candidate
condition (active, cooldown elapsed, resolved amount non-zero and covered,
fresh convertible price, trigger met); the list never exceeds the budget;
and a failed price fetch makes the loop skip that agent (`ok false`)
rather than abort the scan. -/
theorem c7_upkeep_scan :
    (∀ (env : Env) (st : RegistryState) (b : Bool) (l : List B32),
      checkUpkeep env st = .ok (b, l) →
      (∀ x, x ∈ l ↔ x ∈ st.allAgentIds.take st.maxAgentsPerCheck ∧ upkeepReady env st x) ∧
      l.length ≤ st.maxAgentsPerCheck) ∧
    (∀ (env : Env) (st : RegistryState) (agentId : B32) (a : Agent),
      st.agents agentId = some a →
      env.priceNoOlderThan a.strategy.priceFeedId st.priceMaxAge = none →
      upkeepExamine env st agentId = .ok false) := by
  constructor
  · intro env st b l h
    have hS := checkUpkeep_ok_scan env st b l h
    have hlen0 : ([] : List B32).length +
        (st.allAgentIds.take (min st.allAgentIds.length st.maxAgentsPerCheck)).length ≤
        st.maxAgentsPerCheck := by
      simp only [List.length_nil, List.length_take]
      omega
    constructor
    · intro x
      have hmem := upkeepScan_mem env st _ [] l hlen0 hS x
      rw [hmem, take_min_length]
      simp [upkeepExamine_ok_true_iff]
    · have hL := upkeepScan_length env st _ [] l hS
      simp only [List.length_nil, List.length_take] at hL
      omega
  · intro env st agentId a hA hPr
    simp [upkeepExamine, hA, hPr]

/-- Two ready agents for the C7 witness. -/
def c7agent : Agent :=
  { owner := 5, ensNode := 3, ensName := "r.agenttrade.eth"
    strategy :=
      { priceFeedId := 7, triggerPrice := 100, triggerAbove := false, tokenIn := 11,
        tokenOut := 12, amountIn := 5, minReturnAmount := 1, isActive := true,
        lastExecuted := 0, cooldownPeriod := 10 }
    createdAt := 0, totalExecutions := 0 }

/-- Registry with ready agents `1` and `2`, budget 50 (C7 witness). -/
def c7st : RegistryState :=
  { agents := fun j => if j = 1 ∨ j = 2 then some c7agent else none
    userAgents := fun _ => []
    allAgentIds := [1, 2]
    agentCount := 2
    maxAgentsPerCheck := 50
    priceMaxAge := 300
    baseNode := 9 }

/-- Environment for the C7 witness (fresh price, both agents funded). -/
def c7env : Env :=
  { now := 1000
    getPriceUnsafe := fun _ => some ⟨90, -8, 999⟩
    priceNoOlderThan := fun _ _ => some ⟨90, -8, 999⟩
    balanceOf := fun _ => 50
    swap := fun _ => some 42
    ensOk := true
    approveOk := true
    keccakOfLabel := fun _ => 0
    keccakOfPair := fun _ _ => 0 }

/-- Environment whose oracle reverts on every fetch (C7 witness, skip
branch). -/
def c7envStale : Env :=
  { c7env with priceNoOlderThan := fun _ _ => none }

/-- Witness for C7: the membership characterization and budget bound at a
concrete scan that returns `(true, [1, 2])`, plus the skip-on-fetch-failure
branch at a concrete agent. -/
theorem c7_witness :
    ((1 : B32) ∈ [(1 : B32), 2] ↔
      (1 : B32) ∈ c7st.allAgentIds.take c7st.maxAgentsPerCheck ∧ upkeepReady c7env c7st 1) ∧
    ([(1 : B32), 2].length ≤ c7st.maxAgentsPerCheck) ∧
    upkeepExamine c7envStale c7st 1 = .ok false := by
  have h : checkUpkeep c7env c7st = .ok (true, [1, 2]) := rfl
  exact ⟨(c7_upkeep_scan.1 c7env c7st true [1, 2] h).1 1,
         (c7_upkeep_scan.1 c7env c7st true [1, 2] h).2,
         c7_upkeep_scan.2 c7envStale c7st 1 c7agent rfl rfl⟩

/-- Registry for the C7 counterexample: the scan budget is 1 (anyone can
set it via `setMaxAgentsPerCheck`), agent `1` is inactive and agent `2` is
fully ready — but sits outside the scanned window. -/
def c7xst : RegistryState :=
  { agents := fun j =>
      if j = 1 then some { c7agent with strategy := { c7agent.strategy with isActive := false } }
      else if j = 2 then some c7agent else none
    userAgents := fun _ => []
    allAgentIds := [1, 2]
    agentCount := 2
    maxAgentsPerCheck := 1
    priceMaxAge := 300
    baseNode := 9 }

/-- C7 counterexample: agent `2` is active, past cooldown, funded, has a
fresh convertible price and a met trigger — it satisfies every condition of
the claim — yet `checkUpkeep` returns `(false, [])` because only the first
`maxAgentsPerCheck = 1` stored id is ever examined.  The claim's "appears
in the candidate list iff the conditions hold" fails on the code. -/
theorem c7_counterexample :
    checkUpkeep c7env c7xst = .ok (false, []) ∧
    upkeepReady c7env c7xst 2 ∧
    (2 : B32) ∉ ([] : List B32) := by
  refine ⟨rfl, ⟨c7agent, ⟨90, -8, 999⟩, 90, rfl, rfl, rfl, by decide, by decide, rfl, rfl, rfl⟩,
    by simp⟩

/-! ## C3 — lastExecuted evolution across operation sequences -/

/-- Inversion of a successful `updateStrategy` (variant 1): the stored
strategy — `lastExecuted` included — is replaced wholesale by the
caller-supplied one. -/
theorem updateStrategy_ok_elim (env : Env) (st : RegistryState) (sender : Addr)
    (agentId : B32) (s : TradingStrategy) (st' : RegistryState)
    (h : updateStrategy env st sender agentId s = .ok st') :
    ∃ b, st.agents agentId = some b ∧
      st'.agents = setAgent st.agents agentId { b with strategy := s } := by
  simp only [updateStrategy] at h
  split at h
  · exact absurd h (by simp)
  next b hB =>
    split at h
    · exact absurd h (by simp)
    · split at h
      · exact absurd h (by simp)
      · split at h
        · exact absurd h (by simp)
        · injection h with h
          exact ⟨b, hB, by rw [← h]⟩

/-- Inversion of a successful `activateAgent` (variant 1). -/
theorem activateAgent_ok_elim (st : RegistryState) (sender : Addr) (agentId : B32)
    (st' : RegistryState) (h : activateAgent st sender agentId = .ok st') :
    ∃ b, st.agents agentId = some b ∧
      st'.agents = setAgent st.agents agentId { b with strategy := { b.strategy with isActive := true } } := by
  simp only [activateAgent] at h
  split at h
  · exact absurd h (by simp)
  next b hB =>
    split at h
    · exact absurd h (by simp)
    · injection h with h
      exact ⟨b, hB, by rw [← h]⟩

/-- Inversion of a successful `deactivateAgent` (variant 1). -/
theorem deactivateAgent_ok_elim (st : RegistryState) (sender : Addr) (agentId : B32)
    (st' : RegistryState) (h : deactivateAgent st sender agentId = .ok st') :
    ∃ b, st.agents agentId = some b ∧
      st'.agents = setAgent st.agents agentId { b with strategy := { b.strategy with isActive := false } } := by
  simp only [deactivateAgent] at h
  split at h
  · exact absurd h (by simp)
  next b hB =>
    split at h
    · exact absurd h (by simp)
    · injection h with h
      exact ⟨b, hB, by rw [← h]⟩

/-- Step characterization (variant 1): across any call other than
`updateStrategy`, an existing agent's `strategy.lastExecuted` can only stay
equal or grow, and it changes only when the call is a *successful*
`executeSwap` on that very agent, which stamps it with the block
timestamp. -/
theorem stepOp_lastExecuted (env : Env) (st : RegistryState) (op : Op1)
    (hNu : op.isUpdate = false) (id : B32) (a a' : Agent)
    (hA : st.agents id = some a) (hA' : (stepOp env st op).agents id = some a') :
    a.strategy.lastExecuted ≤ a'.strategy.lastExecuted ∧
    (a'.strategy.lastExecuted ≠ a.strategy.lastExecuted →
      op = Op1.exec id ∧ a'.strategy.lastExecuted = env.now ∧
      ∃ st2 r, executeSwap env st id = .ok (st2, r)) := by
  cases op with
  | create sender agentId label s =>
    simp only [stepOp] at hA'
    split at hA'
    next st2 node heq =>
      obtain ⟨hNone, -, A, -, -, hAg⟩ :=
        createAgent_ok_elim env st sender agentId label s st2 node heq
      have hne : id ≠ agentId := by
        intro he
        rw [he, hNone] at hA
        simp at hA
      rw [hAg] at hA'
      simp only [setAgent, if_neg hne] at hA'
      rw [hA] at hA'
      injection hA' with he2
      subst he2
      exact ⟨Nat.le_refl _, fun hne2 => absurd rfl hne2⟩
    next e heq =>
      rw [hA] at hA'
      injection hA' with he2
      subst he2
      exact ⟨Nat.le_refl _, fun hne2 => absurd rfl hne2⟩
  | update sender agentId s => simp [Op1.isUpdate] at hNu
  | activate sender agentId =>
    simp only [stepOp] at hA'
    split at hA'
    next st2 heq =>
      obtain ⟨b, hB, hAg⟩ := activateAgent_ok_elim st sender agentId st2 heq
      rw [hAg] at hA'
      by_cases hid : id = agentId
      · subst hid
        rw [hA] at hB
        injection hB with hb
        subst hb
        simp only [setAgent, if_pos rfl] at hA'
        injection hA' with he2
        subst he2
        exact ⟨Nat.le_refl _, fun hne2 => absurd rfl hne2⟩
      · simp only [setAgent, if_neg hid] at hA'
        rw [hA] at hA'
        injection hA' with he2
        subst he2
        exact ⟨Nat.le_refl _, fun hne2 => absurd rfl hne2⟩
    next e heq =>
      rw [hA] at hA'
      injection hA' with he2
      subst he2
      exact ⟨Nat.le_refl _, fun hne2 => absurd rfl hne2⟩
  | deactivate sender agentId =>
    simp only [stepOp] at hA'
    split at hA'
    next st2 heq =>
      obtain ⟨b, hB, hAg⟩ := deactivateAgent_ok_elim st sender agentId st2 heq
      rw [hAg] at hA'
      by_cases hid : id = agentId
      · subst hid
        rw [hA] at hB
        injection hB with hb
        subst hb
        simp only [setAgent, if_pos rfl] at hA'
        injection hA' with he2
        subst he2
        exact ⟨Nat.le_refl _, fun hne2 => absurd rfl hne2⟩
      · simp only [setAgent, if_neg hid] at hA'
        rw [hA] at hA'
        injection hA' with he2
        subst he2
        exact ⟨Nat.le_refl _, fun hne2 => absurd rfl hne2⟩
    next e heq =>
      rw [hA] at hA'
      injection hA' with he2
      subst he2
      exact ⟨Nat.le_refl _, fun hne2 => absurd rfl hne2⟩
  | exec agentId =>
    simp only [stepOp, runExecuteSwap] at hA'
    split at hA'
    next st2 r heq =>
      obtain ⟨b, hB, hAct, hCd, hSt⟩ := executeSwap_ok_elim env st agentId st2 r heq
      rw [hSt] at hA'
      by_cases hid : id = agentId
      · subst hid
        rw [hA] at hB
        injection hB with hb
        subst hb
        simp only [setAgent, if_pos rfl] at hA'
        injection hA' with he2
        subst he2
        have hle : a.strategy.lastExecuted ≤ env.now := by
          unfold cooldownActive at hCd
          simp only [decide_eq_false_iff_not, Nat.not_lt] at hCd
          omega
        refine ⟨by simpa [commitAgent] using hle, fun _ => ⟨rfl, by simp [commitAgent], st2, r, heq⟩⟩
      · simp only [setAgent, if_neg hid] at hA'
        rw [hA] at hA'
        injection hA' with he2
        subst he2
        exact ⟨Nat.le_refl _, fun hne2 => absurd rfl hne2⟩
    next e heq =>
      rw [hA] at hA'
      injection hA' with he2
      subst he2
      exact ⟨Nat.le_refl _, fun hne2 => absurd rfl hne2⟩
  | depositCall sender agentId token amount =>
    simp only [stepOp] at hA'
    rw [hA] at hA'
    injection hA' with he2
    subst he2
    exact ⟨Nat.le_refl _, fun hne2 => absurd rfl hne2⟩
  | withdrawCall sender agentId token amount =>
    simp only [stepOp] at hA'
    rw [hA] at hA'
    injection hA' with he2
    subst he2
    exact ⟨Nat.le_refl _, fun hne2 => absurd rfl hne2⟩
  | setMax caller v =>
    simp only [stepOp, setMaxAgentsPerCheck] at hA'
    rw [hA] at hA'
    injection hA' with he2
    subst he2
    exact ⟨Nat.le_refl _, fun hne2 => absurd rfl hne2⟩
  | setAge caller v =>
    simp only [stepOp, setPriceMaxAge] at hA'
    rw [hA] at hA'
    injection hA' with he2
    subst he2
    exact ⟨Nat.le_refl _, fun hne2 => absurd rfl hne2⟩

/-- Agents are never deleted: every variant-1 call preserves an existing
agent entry (possibly rewriting its fields). -/
theorem stepOp_preserves_agent (env : Env) (st : RegistryState) (op : Op1)
    (id : B32) (a : Agent) (hA : st.agents id = some a) :
    ∃ b, (stepOp env st op).agents id = some b := by
  cases op with
  | create sender agentId label s =>
    simp only [stepOp]
    split
    next st2 node heq =>
      obtain ⟨hNone, -, A, -, -, hAg⟩ :=
        createAgent_ok_elim env st sender agentId label s st2 node heq
      rw [hAg]
      simp only [setAgent]
      split
      · exact ⟨A, rfl⟩
      · exact ⟨a, hA⟩
    next e heq => exact ⟨a, hA⟩
  | update sender agentId s =>
    simp only [stepOp]
    split
    next st2 heq =>
      obtain ⟨b, hB, hAg⟩ := updateStrategy_ok_elim env st sender agentId s st2 heq
      rw [hAg]
      simp only [setAgent]
      split
      · exact ⟨_, rfl⟩
      · exact ⟨a, hA⟩
    next e heq => exact ⟨a, hA⟩
  | activate sender agentId =>
    simp only [stepOp]
    split
    next st2 heq =>
      obtain ⟨b, hB, hAg⟩ := activateAgent_ok_elim st sender agentId st2 heq
      rw [hAg]
      simp only [setAgent]
      split
      · exact ⟨_, rfl⟩
      · exact ⟨a, hA⟩
    next e heq => exact ⟨a, hA⟩
  | deactivate sender agentId =>
    simp only [stepOp]
    split
    next st2 heq =>
      obtain ⟨b, hB, hAg⟩ := deactivateAgent_ok_elim st sender agentId st2 heq
      rw [hAg]
      simp only [setAgent]
      split
      · exact ⟨_, rfl⟩
      · exact ⟨a, hA⟩
    next e heq => exact ⟨a, hA⟩
  | exec agentId =>
    simp only [stepOp, runExecuteSwap]
    split
    next st2 r heq =>
      obtain ⟨b, hB, -, -, hSt⟩ := executeSwap_ok_elim env st agentId st2 r heq
      rw [hSt]
      simp only [setAgent]
      split
      · exact ⟨_, rfl⟩
      · exact ⟨a, hA⟩
    next e heq => exact ⟨a, hA⟩
  | depositCall sender agentId token amount => exact ⟨a, hA⟩
  | withdrawCall sender agentId token amount => exact ⟨a, hA⟩
  | setMax caller v => exact ⟨a, hA⟩
  | setAge caller v => exact ⟨a, hA⟩

/-- Sequence monotonicity (variant 1): over any sequence of calls that
contains no `updateStrategy`, an existing agent's `lastExecuted` never
decreases. -/
theorem runOps_lastExecuted_mono (steps : List (Env × Op1)) :
    ∀ (st : RegistryState) (id : B32) (a a' : Agent),
    (∀ p ∈ steps, (p : Env × Op1).2.isUpdate = false) →
    st.agents id = some a → (runOps steps st).agents id = some a' →
    a.strategy.lastExecuted ≤ a'.strategy.lastExecuted := by
  induction steps with
  | nil =>
    intro st id a a' _ hA hA'
    simp only [runOps] at hA'
    rw [hA] at hA'
    injection hA' with he
    subst he
    exact Nat.le_refl _
  | cons p rest ih =>
    intro st id a a' hNu hA hA'
    obtain ⟨env, op⟩ := p
    obtain ⟨b, hB⟩ := stepOp_preserves_agent env st op id a hA
    have h1 := (stepOp_lastExecuted env st op
      (hNu _ (List.mem_cons_self _ _)) id a b hA hB).1
    have h2 := ih (stepOp env st op) id b a'
      (fun q hq => hNu q (List.mem_cons_of_mem _ hq)) hB (by simpa [runOps] using hA')
    omega

/-- The storage write of a successful `checkAndExecuteTrigger`:
`lastExecuted = block.timestamp`. -/
def commitAgent2 (a : Agent2) (now : Nat) : Agent2 :=
  { a with strategy := { a.strategy with lastExecuted := now } }

/-- Inversion of a successful `createAgent` (variant 2). -/
theorem createAgent2_ok_elim (env : Env2) (st : Registry2State) (sender : Addr)
    (agentId : B32) (ensLabel : String) (s : TradingStrategy)
    (st2 : Registry2State) (node : B32)
    (h : createAgent2 env st sender agentId ensLabel s = .ok (st2, node)) :
    st.agents agentId = none ∧
    ∃ A : Agent2, A.strategy = s ∧ st2.agents = setAgent2 st.agents agentId A := by
  simp only [createAgent2] at h
  split at h
  · exact absurd h (by simp)
  next hA =>
    split at h
    · exact absurd h (by simp)
    · split at h
      · exact absurd h (by simp)
      · split at h
        · exact absurd h (by simp)
        · simp only [Except.ok.injEq, Prod.mk.injEq] at h
          refine ⟨hA,
            ⟨{ owner := sender
               ensNode := env.keccakOfPair st.baseNode (env.keccakOfLabel ensLabel)
               ensName := ensLabel ++ ".agentrade.eth"
               strategy := s
               createdAt := env.now }, rfl, ?_⟩⟩
          rw [← h.1]

/-- Inversion of a successful `updateStrategy` (variant 2). -/
theorem updateStrategy2_ok_elim (env : Env2) (st : Registry2State) (sender : Addr)
    (agentId : B32) (s : TradingStrategy) (st' : Registry2State)
    (h : updateStrategy2 env st sender agentId s = .ok st') :
    ∃ b, st.agents agentId = some b ∧
      st'.agents = setAgent2 st.agents agentId { b with strategy := s } := by
  simp only [updateStrategy2] at h
  split at h
  · exact absurd h (by simp)
  next b hB =>
    split at h
    · exact absurd h (by simp)
    · split at h
      · exact absurd h (by simp)
      · split at h
        · exact absurd h (by simp)
        · injection h with h
          exact ⟨b, hB, by rw [← h]⟩

/-- Inversion of a successful `activateAgent` (variant 2). -/
theorem activateAgent2_ok_elim (st : Registry2State) (sender : Addr) (agentId : B32)
    (st' : Registry2State) (h : activateAgent2 st sender agentId = .ok st') :
    ∃ b, st.agents agentId = some b ∧
      st'.agents = setAgent2 st.agents agentId { b with strategy := { b.strategy with isActive := true } } := by
  simp only [activateAgent2] at h
  split at h
  · exact absurd h (by simp)
  next b hB =>
    split at h
    · exact absurd h (by simp)
    · injection h with h
      exact ⟨b, hB, by rw [← h]⟩

/-- Inversion of a successful `deactivateAgent` (variant 2). -/
theorem deactivateAgent2_ok_elim (st : Registry2State) (sender : Addr) (agentId : B32)
    (st' : Registry2State) (h : deactivateAgent2 st sender agentId = .ok st') :
    ∃ b, st.agents agentId = some b ∧
      st'.agents = setAgent2 st.agents agentId { b with strategy := { b.strategy with isActive := false } } := by
  simp only [deactivateAgent2] at h
  split at h
  · exact absurd h (by simp)
  next b hB =>
    split at h
    · exact absurd h (by simp)
    · injection h with h
      exact ⟨b, hB, by rw [← h]⟩

/-- Inversion of a successful `transferAgentOwnership` (variant 2): only
the owner field of the agent record is rewritten. -/
theorem transferAgentOwnership_ok_elim (st : Registry2State) (sender : Addr)
    (agentId : B32) (newOwner : Addr) (st' : Registry2State)
    (h : transferAgentOwnership st sender agentId newOwner = .ok st') :
    ∃ b, st.agents agentId = some b ∧
      st'.agents = setAgent2 st.agents agentId { b with owner := newOwner } := by
  simp only [transferAgentOwnership] at h
  split at h
  · exact absurd h (by simp)
  · split at h
    · exact absurd h (by simp)
    next b hB =>
      split at h
      · exact absurd h (by simp)
      · injection h with h
        exact ⟨b, hB, by rw [← h]⟩

/-- Inversion of a successful `checkAndExecuteTrigger`: the agent existed,
was active, was past its cooldown, and the post-state stamps its
`lastExecuted` with the block timestamp. -/
theorem checkAndExecuteTrigger_ok_elim (env : Env2) (st : Registry2State)
    (agentId : B32) (hasUpdateData : Bool) (st' : Registry2State)
    (h : checkAndExecuteTrigger env st agentId hasUpdateData = .ok st') :
    ∃ a, st.agents agentId = some a ∧ a.strategy.isActive = true ∧
      cooldownActive a.strategy env.now = false ∧
      st'.agents = setAgent2 st.agents agentId (commitAgent2 a env.now) := by
  simp only [checkAndExecuteTrigger] at h
  split at h
  · exact absurd h (by simp)
  next a hA =>
    split at h
    · exact absurd h (by simp)
    next hAct =>
      split at h
      · exact absurd h (by simp)
      next hFee =>
        split at h
        · exact absurd h (by simp)
        next hUpd =>
          split at h
          · exact absurd h (by simp)
          next pr hPr =>
            split at h
            · exact absurd h (by simp)
            next hPub =>
              split at h
              · exact absurd h (by simp)
              next hCd =>
                split at h
                · exact absurd h (by simp)
                next cp hCv =>
                  split at h
                  · exact absurd h (by simp)
                  next hTr =>
                    refine ⟨a, hA, by simpa using hAct, by simpa using hCd, ?_⟩
                    split at h
                    · split at h
                      · injection h with h
                        rw [← h]
                        rfl
                      · exact absurd h (by simp)
                    · injection h with h
                      rw [← h]
                      rfl

/-- Step characterization (variant 2): across any call other than
`updateStrategy`, an existing agent's `strategy.lastExecuted` can only stay
equal or grow, and it changes only when the call is a *successful*
`checkAndExecuteTrigger` on that very agent. -/
theorem stepOp2_lastExecuted (env : Env2) (st : Registry2State) (op : Op2)
    (hNu : op.isUpdate = false) (id : B32) (a a' : Agent2)
    (hA : st.agents id = some a) (hA' : (stepOp2 env st op).agents id = some a') :
    a.strategy.lastExecuted ≤ a'.strategy.lastExecuted ∧
    (a'.strategy.lastExecuted ≠ a.strategy.lastExecuted →
      (∃ hu, op = Op2.trigger id hu ∧
        ∃ st2, checkAndExecuteTrigger env st id hu = .ok st2) ∧
      a'.strategy.lastExecuted = env.now) := by
  cases op with
  | create sender agentId label s =>
    simp only [stepOp2] at hA'
    split at hA'
    next st2 node heq =>
      obtain ⟨hNone, A, -, hAg⟩ :=
        createAgent2_ok_elim env st sender agentId label s st2 node heq
      have hne : id ≠ agentId := by
        intro he
        rw [he, hNone] at hA
        simp at hA
      rw [hAg] at hA'
      simp only [setAgent2, if_neg hne] at hA'
      rw [hA] at hA'
      injection hA' with he2
      subst he2
      exact ⟨Nat.le_refl _, fun hne2 => absurd rfl hne2⟩
    next e heq =>
      rw [hA] at hA'
      injection hA' with he2
      subst he2
      exact ⟨Nat.le_refl _, fun hne2 => absurd rfl hne2⟩
  | update sender agentId s => simp [Op2.isUpdate] at hNu
  | trigger agentId hasUpdateData =>
    simp only [stepOp2, runCheckAndExecuteTrigger] at hA'
    split at hA'
    next st2 heq =>
      obtain ⟨b, hB, hAct, hCd, hAg⟩ :=
        checkAndExecuteTrigger_ok_elim env st agentId hasUpdateData st2 heq
      rw [hAg] at hA'
      by_cases hid : id = agentId
      · subst hid
        rw [hA] at hB
        injection hB with hb
        subst hb
        simp only [setAgent2, if_pos rfl] at hA'
        injection hA' with he2
        subst he2
        have hle : a.strategy.lastExecuted ≤ env.now := by
          unfold cooldownActive at hCd
          simp only [decide_eq_false_iff_not, Nat.not_lt] at hCd
          omega
        refine ⟨by simpa [commitAgent2] using hle,
          fun _ => ⟨⟨hasUpdateData, rfl, st2, heq⟩, by simp [commitAgent2]⟩⟩
      · simp only [setAgent2, if_neg hid] at hA'
        rw [hA] at hA'
        injection hA' with he2
        subst he2
        exact ⟨Nat.le_refl _, fun hne2 => absurd rfl hne2⟩
    next e heq =>
      rw [hA] at hA'
      injection hA' with he2
      subst he2
      exact ⟨Nat.le_refl _, fun hne2 => absurd rfl hne2⟩
  | activate sender agentId =>
    simp only [stepOp2] at hA'
    split at hA'
    next st2 heq =>
      obtain ⟨b, hB, hAg⟩ := activateAgent2_ok_elim st sender agentId st2 heq
      rw [hAg] at hA'
      by_cases hid : id = agentId
      · subst hid
        rw [hA] at hB
        injection hB with hb
        subst hb
        simp only [setAgent2, if_pos rfl] at hA'
        injection hA' with he2
        subst he2
        exact ⟨Nat.le_refl _, fun hne2 => absurd rfl hne2⟩
      · simp only [setAgent2, if_neg hid] at hA'
        rw [hA] at hA'
        injection hA' with he2
        subst he2
        exact ⟨Nat.le_refl _, fun hne2 => absurd rfl hne2⟩
    next e heq =>
      rw [hA] at hA'
      injection hA' with he2
      subst he2
      exact ⟨Nat.le_refl _, fun hne2 => absurd rfl hne2⟩
  | deactivate sender agentId =>
    simp only [stepOp2] at hA'
    split at hA'
    next st2 heq =>
      obtain ⟨b, hB, hAg⟩ := deactivateAgent2_ok_elim st sender agentId st2 heq
      rw [hAg] at hA'
      by_cases hid : id = agentId
      · subst hid
        rw [hA] at hB
        injection hB with hb
        subst hb
        simp only [setAgent2, if_pos rfl] at hA'
        injection hA' with he2
        subst he2
        exact ⟨Nat.le_refl _, fun hne2 => absurd rfl hne2⟩
      · simp only [setAgent2, if_neg hid] at hA'
        rw [hA] at hA'
        injection hA' with he2
        subst he2
        exact ⟨Nat.le_refl _, fun hne2 => absurd rfl hne2⟩
    next e heq =>
      rw [hA] at hA'
      injection hA' with he2
      subst he2
      exact ⟨Nat.le_refl _, fun hne2 => absurd rfl hne2⟩
  | transfer sender agentId newOwner =>
    simp only [stepOp2] at hA'
    split at hA'
    next st2 heq =>
      obtain ⟨b, hB, hAg⟩ := transferAgentOwnership_ok_elim st sender agentId newOwner st2 heq
      rw [hAg] at hA'
      by_cases hid : id = agentId
      · subst hid
        rw [hA] at hB
        injection hB with hb
        subst hb
        simp only [setAgent2, if_pos rfl] at hA'
        injection hA' with he2
        subst he2
        exact ⟨Nat.le_refl _, fun hne2 => absurd rfl hne2⟩
      · simp only [setAgent2, if_neg hid] at hA'
        rw [hA] at hA'
        injection hA' with he2
        subst he2
        exact ⟨Nat.le_refl _, fun hne2 => absurd rfl hne2⟩
    next e heq =>
      rw [hA] at hA'
      injection hA' with he2
      subst he2
      exact ⟨Nat.le_refl _, fun hne2 => absurd rfl hne2⟩

/-- Agents are never deleted (variant 2). -/
theorem stepOp2_preserves_agent (env : Env2) (st : Registry2State) (op : Op2)
    (id : B32) (a : Agent2) (hA : st.agents id = some a) :
    ∃ b, (stepOp2 env st op).agents id = some b := by
  cases op with
  | create sender agentId label s =>
    simp only [stepOp2]
    split
    next st2 node heq =>
      obtain ⟨hNone, A, -, hAg⟩ :=
        createAgent2_ok_elim env st sender agentId label s st2 node heq
      rw [hAg]
      simp only [setAgent2]
      split
      · exact ⟨A, rfl⟩
      · exact ⟨a, hA⟩
    next e heq => exact ⟨a, hA⟩
  | update sender agentId s =>
    simp only [stepOp2]
    split
    next st2 heq =>
      obtain ⟨b, hB, hAg⟩ := updateStrategy2_ok_elim env st sender agentId s st2 heq
      rw [hAg]
      simp only [setAgent2]
      split
      · exact ⟨_, rfl⟩
      · exact ⟨a, hA⟩
    next e heq => exact ⟨a, hA⟩
  | trigger agentId hasUpdateData =>
    simp only [stepOp2, runCheckAndExecuteTrigger]
    split
    next st2 heq =>
      obtain ⟨b, hB, -, -, hAg⟩ :=
        checkAndExecuteTrigger_ok_elim env st agentId hasUpdateData st2 heq
      rw [hAg]
      simp only [setAgent2]
      split
      · exact ⟨_, rfl⟩
      · exact ⟨a, hA⟩
    next e heq => exact ⟨a, hA⟩
  | activate sender agentId =>
    simp only [stepOp2]
    split
    next st2 heq =>
      obtain ⟨b, hB, hAg⟩ := activateAgent2_ok_elim st sender agentId st2 heq
      rw [hAg]
      simp only [setAgent2]
      split
      · exact ⟨_, rfl⟩
      · exact ⟨a, hA⟩
    next e heq => exact ⟨a, hA⟩
  | deactivate sender agentId =>
    simp only [stepOp2]
    split
    next st2 heq =>
      obtain ⟨b, hB, hAg⟩ := deactivateAgent2_ok_elim st sender agentId st2 heq
      rw [hAg]
      simp only [setAgent2]
      split
      · exact ⟨_, rfl⟩
      · exact ⟨a, hA⟩
    next e heq => exact ⟨a, hA⟩
  | transfer sender agentId newOwner =>
    simp only [stepOp2]
    split
    next st2 heq =>
      obtain ⟨b, hB, hAg⟩ := transferAgentOwnership_ok_elim st sender agentId newOwner st2 heq
      rw [hAg]
      simp only [setAgent2]
      split
      · exact ⟨_, rfl⟩
      · exact ⟨a, hA⟩
    next e heq => exact ⟨a, hA⟩

/-- Sequence monotonicity (variant 2). -/
theorem runOps2_lastExecuted_mono (steps : List (Env2 × Op2)) :
    ∀ (st : Registry2State) (id : B32) (a a' : Agent2),
    (∀ p ∈ steps, (p : Env2 × Op2).2.isUpdate = false) →
    st.agents id = some a → (runOps2 steps st).agents id = some a' →
    a.strategy.lastExecuted ≤ a'.strategy.lastExecuted := by
  induction steps with
  | nil =>
    intro st id a a' _ hA hA'
    simp only [runOps2] at hA'
    rw [hA] at hA'
    injection hA' with he
    subst he
    exact Nat.le_refl _
  | cons p rest ih =>
    intro st id a a' hNu hA hA'
    obtain ⟨env, op⟩ := p
    obtain ⟨b, hB⟩ := stepOp2_preserves_agent env st op id a hA
    have h1 := (stepOp2_lastExecuted env st op
      (hNu _ (List.mem_cons_self _ _)) id a b hA hB).1
    have h2 := ih (stepOp2 env st op) id b a'
      (fun q hq => hNu q (List.mem_cons_of_mem _ hq)) hB (by simpa [runOps2] using hA')
    omega

/-- C3 (amended): over every sequence of registry calls *other than*
`updateStrategy` — creation, activation/deactivation, execution
(`executeSwap` in variant 1, `checkAndExecuteTrigger` in variant 2),
deposits/withdrawals, configuration setters and ownership transfer — an
existing agent's `strategy.lastExecuted` never decreases, and a single step
changes it only when that step is a successful execution of that very
agent, which stamps it with the block timestamp.  `updateStrategy`,
however, replaces the strategy wholesale with the caller-supplied record,
`lastExecuted` included, and can therefore move it arbitrarily (see the
counterexample). -/
theorem c3_lastExecuted_monotone :
    (∀ (env : Env) (st : RegistryState) (op : Op1), op.isUpdate = false →
      ∀ (id : B32) (a a' : Agent), st.agents id = some a →
      (stepOp env st op).agents id = some a' →
      a.strategy.lastExecuted ≤ a'.strategy.lastExecuted ∧
      (a'.strategy.lastExecuted ≠ a.strategy.lastExecuted →
        op = Op1.exec id ∧ a'.strategy.lastExecuted = env.now ∧
        ∃ st2 r, executeSwap env st id = .ok (st2, r))) ∧
    (∀ (steps : List (Env × Op1)) (st : RegistryState) (id : B32) (a a' : Agent),
      (∀ p ∈ steps, (p : Env × Op1).2.isUpdate = false) →
      st.agents id = some a → (runOps steps st).agents id = some a' →
      a.strategy.lastExecuted ≤ a'.strategy.lastExecuted) ∧
    (∀ (env : Env2) (st : Registry2State) (op : Op2), op.isUpdate = false →
      ∀ (id : B32) (a a' : Agent2), st.agents id = some a →
      (stepOp2 env st op).agents id = some a' →
      a.strategy.lastExecuted ≤ a'.strategy.lastExecuted ∧
      (a'.strategy.lastExecuted ≠ a.strategy.lastExecuted →
        (∃ hu, op = Op2.trigger id hu ∧
          ∃ st2, checkAndExecuteTrigger env st id hu = .ok st2) ∧
        a'.strategy.lastExecuted = env.now)) ∧
    (∀ (steps : List (Env2 × Op2)) (st : Registry2State) (id : B32) (a a' : Agent2),
      (∀ p ∈ steps, (p : Env2 × Op2).2.isUpdate = false) →
      st.agents id = some a → (runOps2 steps st).agents id = some a' →
      a.strategy.lastExecuted ≤ a'.strategy.lastExecuted) :=
  ⟨fun env st op hNu id a a' hA hA' => stepOp_lastExecuted env st op hNu id a a' hA hA',
   fun steps st id a a' hNu hA hA' => runOps_lastExecuted_mono steps st id a a' hNu hA hA',
   fun env st op hNu id a a' hA hA' => stepOp2_lastExecuted env st op hNu id a a' hA hA',
   fun steps st id a a' hNu hA hA' => runOps2_lastExecuted_mono steps st id a a' hNu hA hA'⟩

/-- Agent for the C3 witness (variant 1), eligible and triggered. -/
def c3wagent : Agent :=
  { owner := 5, ensNode := 3, ensName := "e.agenttrade.eth"
    strategy :=
      { priceFeedId := 7, triggerPrice := 100, triggerAbove := false, tokenIn := 11,
        tokenOut := 12, amountIn := 5, minReturnAmount := 1, isActive := true,
        lastExecuted := 2, cooldownPeriod := 10 }
    createdAt := 0, totalExecutions := 0 }

/-- Registry for the C3 witness (variant 1). -/
def c3wst : RegistryState :=
  { agents := fun j => if j = 1 then some c3wagent else none
    userAgents := fun _ => []
    allAgentIds := [1]
    agentCount := 1
    maxAgentsPerCheck := 50
    priceMaxAge := 300
    baseNode := 9 }

/-- Environment for the C3 witness (variant 1). -/
def c3wenv : Env :=
  { now := 1000
    getPriceUnsafe := fun _ => some ⟨90, -8, 999⟩
    priceNoOlderThan := fun _ _ => some ⟨90, -8, 999⟩
    balanceOf := fun _ => 50
    swap := fun _ => some 42
    ensOk := true
    approveOk := true
    keccakOfLabel := fun _ => 0
    keccakOfPair := fun _ _ => 0 }

/-- Agent for the C3 witness (variant 2). -/
def c3w2agent : Agent2 :=
  { owner := 5, ensNode := 3, ensName := "e.agentrade.eth"
    strategy :=
      { priceFeedId := 7, triggerPrice := 100, triggerAbove := false, tokenIn := 11,
        tokenOut := 12, amountIn := 5, minReturnAmount := 0, isActive := true,
        lastExecuted := 2, cooldownPeriod := 10 }
    createdAt := 0 }

/-- Registry for the C3 witness (variant 2). -/
def c3w2st : Registry2State :=
  { agents := fun j => if j = 1 then some c3w2agent else none
    userAgents := fun _ => []
    ensNodeToAgentId := fun _ => 0
    agentCount := 1
    baseNode := 9 }

/-- Environment for the C3 witness (variant 2). -/
def c3w2env : Env2 :=
  { now := 1000
    msgValue := 0
    updateFee := 0
    updateOk := true
    getPriceUnsafe := fun _ => some ⟨90, -8, 999⟩
    priceNoOlderThan := fun _ _ => some ⟨90, -8, 999⟩
    refundOk := true
    ensOk := true
    keccakOfLabel := fun _ => 0
    keccakOfPair := fun _ _ => 0 }

/-- Witness for C3: the step characterization and sequence monotonicity at
concrete successful executions in both variants. -/
theorem c3_witness :
    (c3wagent.strategy.lastExecuted ≤ (commitAgent c3wagent 1000).strategy.lastExecuted ∧
     ((commitAgent c3wagent 1000).strategy.lastExecuted ≠ c3wagent.strategy.lastExecuted →
       Op1.exec 1 = Op1.exec 1 ∧
       (commitAgent c3wagent 1000).strategy.lastExecuted = c3wenv.now ∧
       ∃ st2 r, executeSwap c3wenv c3wst 1 = .ok (st2, r))) ∧
    c3wagent.strategy.lastExecuted ≤ (commitAgent c3wagent 1000).strategy.lastExecuted ∧
    (c3w2agent.strategy.lastExecuted ≤ (commitAgent2 c3w2agent 1000).strategy.lastExecuted ∧
     ((commitAgent2 c3w2agent 1000).strategy.lastExecuted ≠ c3w2agent.strategy.lastExecuted →
       (∃ hu, Op2.trigger 1 false = Op2.trigger 1 hu ∧
         ∃ st2, checkAndExecuteTrigger c3w2env c3w2st 1 hu = .ok st2) ∧
       (commitAgent2 c3w2agent 1000).strategy.lastExecuted = c3w2env.now)) ∧
    c3w2agent.strategy.lastExecuted ≤ (commitAgent2 c3w2agent 1000).strategy.lastExecuted :=
  ⟨c3_lastExecuted_monotone.1 c3wenv c3wst (Op1.exec 1) rfl 1 c3wagent
     (commitAgent c3wagent 1000) rfl rfl,
   c3_lastExecuted_monotone.2.1 [(c3wenv, Op1.exec 1)] c3wst 1 c3wagent
     (commitAgent c3wagent 1000)
     (by rintro p hp; rw [List.mem_singleton] at hp; subst hp; rfl) rfl rfl,
   c3_lastExecuted_monotone.2.2.1 c3w2env c3w2st (Op2.trigger 1 false) rfl 1 c3w2agent
     (commitAgent2 c3w2agent 1000) rfl rfl,
   c3_lastExecuted_monotone.2.2.2 [(c3w2env, Op2.trigger 1 false)] c3w2st 1 c3w2agent
     (commitAgent2 c3w2agent 1000)
     (by rintro p hp; rw [List.mem_singleton] at hp; subst hp; rfl) rfl rfl⟩

/-- Agent for the C3 counterexample: `lastExecuted = 100`. -/
def c3xagent : Agent :=
  { owner := 5, ensNode := 3, ensName := "f.agenttrade.eth"
    strategy :=
      { priceFeedId := 7, triggerPrice := 100, triggerAbove := false, tokenIn := 11,
        tokenOut := 12, amountIn := 5, minReturnAmount := 1, isActive := true,
        lastExecuted := 100, cooldownPeriod := 10 }
    createdAt := 0, totalExecutions := 3 }

/-- Replacement strategy for the C3 counterexample: identical except the
caller supplies `lastExecuted = 5`. -/
def c3xnew : TradingStrategy :=
  { priceFeedId := 7, triggerPrice := 100, triggerAbove := false, tokenIn := 11,
    tokenOut := 12, amountIn := 5, minReturnAmount := 1, isActive := true,
    lastExecuted := 5, cooldownPeriod := 10 }

/-- Registry for the C3 counterexample. -/
def c3xst : RegistryState :=
  { agents := fun j => if j = 1 then some c3xagent else none
    userAgents := fun _ => []
    allAgentIds := [1]
    agentCount := 1
    maxAgentsPerCheck := 50
    priceMaxAge := 300
    baseNode := 9 }

/-- Environment for the C3 counterexample (feed resolvable, so the
replacement strategy validates). -/
def c3xenv : Env :=
  { now := 1000
    getPriceUnsafe := fun _ => some ⟨90, -8, 999⟩
    priceNoOlderThan := fun _ _ => some ⟨90, -8, 999⟩
    balanceOf := fun _ => 50
    swap := fun _ => some 42
    ensOk := true
    approveOk := true
    keccakOfLabel := fun _ => 0
    keccakOfPair := fun _ _ => 0 }

/-- Registry after the C3 counterexample `updateStrategy`. -/
def c3xst2 : RegistryState :=
  { c3xst with agents := setAgent c3xst.agents 1 { c3xagent with strategy := c3xnew } }

/-- C3 counterexample: the owner's `updateStrategy` — not an execution —
rewrites `strategy.lastExecuted` from `100` down to `5`, so `lastExecuted`
neither only increases nor changes only through successful executions. -/
theorem c3_counterexample :
    c3xagent.strategy.lastExecuted = 100 ∧
    updateStrategy c3xenv c3xst 5 1 c3xnew = .ok c3xst2 ∧
    c3xst2.agents 1 = some { c3xagent with strategy := c3xnew } ∧
    ({ c3xagent with strategy := c3xnew } : Agent).strategy.lastExecuted = 5 :=
  ⟨rfl, rfl, rfl, rfl⟩
